import Mathlib

/-!
Shallow embedding of the HOS Compliance & Duty Scheduling Engine of the
truck-app repository (src/eld_logs/services.py, src/eld_logs/models.py).

Modelling conventions:
* Timestamps are rationals measured in hours from midnight of day 0; the
  calendar day `d` spans `[24*d, 24*(d+1))`.  `log_date` is the integer day.
* Durations are rationals in hours (the Python code's `timedelta` values,
  divided by 3600 seconds).
* `DutyStatusRecord.end_time = none` models a SQL NULL `end_time` (an open
  interval).
* Django querysets: `DutyStatusRecord.Meta.ordering = ['eld_log','start_time']`
  means a log's related records come back sorted by `start_time`; we model a
  queryset as the creation-order list re-sorted with a stable insertion sort.
  `order_by('-end_time')` is modelled with NULLs ordered first ascending
  (SQLite semantics), i.e. descending puts NULL rows last.
* Presentation-only payload (location, notes, GPS, odometer, edit-audit
  fields, human-readable violation descriptions, row ids) is never read by
  the engine's logic and is omitted from the structures.
* `timezone.now()` fallbacks for `violation_time` are modelled as `none`.
* The storage collaborator (the Django ORM) is modelled by passing the
  driver's stored logs explicitly as a `List ELDLog` (the spec itself says
  the engine "operates on objects handed to it"); a single driver is in
  scope, and `ELDLog.objects.get/filter(driver=..., log_date=...)` becomes a
  lookup by `log_date` in that list.
-/

namespace TruckApp

/-- The four FMCSA duty statuses (`DutyStatus.DUTY_STATUS_CHOICES` in
src/eld_logs/models.py). -/
inductive Status where
  | off_duty
  | sleeper_berth
  | driving
  | on_duty_not_driving
deriving DecidableEq, Repr

/-- A driver's HOS cycle configuration (`Driver.cycle_type`). -/
inductive CycleType where
  | cycle_70_8
  | cycle_60_7
deriving DecidableEq, Repr

/-- `DutyStatusRecord` (src/eld_logs/models.py, lines 67-108): one duty-status
interval of a daily log.  `end_time = none` is an open interval. -/
structure DutyStatusRecord where
  duty_status : Status
  start_time : ℚ
  end_time : Option ℚ
deriving DecidableEq, Repr

/-- `DutyStatusRecord.duration` (src/eld_logs/models.py lines 103-108):
`end_time - start_time` when closed, `timedelta(0)` when open. -/
def DutyStatusRecord.duration (r : DutyStatusRecord) : ℚ :=
  match r.end_time with
  | some e => e - r.start_time
  | none => 0

/-- `ELDLog` (src/eld_logs/models.py lines 27-64): one driver-day of duty
records, with the four cached aggregate durations and the violation flags.
`duty_records` is kept in row-creation order; queryset accesses re-sort it. -/
structure ELDLog where
  log_date : ℤ
  duty_records : List DutyStatusRecord
  total_drive_time : ℚ
  total_duty_time : ℚ
  total_off_duty_time : ℚ
  total_sleeper_time : ℚ
  has_driving_violation : Bool
  has_duty_violation : Bool
deriving DecidableEq, Repr

/-- `HOSViolation.VIOLATION_TYPES` (src/eld_logs/models.py lines 113-120). -/
inductive ViolationType where
  | drive_11h
  | duty_14h
  | cycle_70h
  | cycle_60h
  | rest_break
  | daily_rest
deriving DecidableEq, Repr

/-- `HOSViolation.SEVERITY_CHOICES` (src/eld_logs/models.py lines 122-126). -/
inductive Severity where
  | warning
  | violation
  | critical
deriving DecidableEq, Repr

/-- `HOSViolation` (src/eld_logs/models.py lines 111-147).  `violation_time =
none` models the `timezone.now()` fallback. -/
structure HOSViolation where
  violation_type : ViolationType
  severity : Severity
  actual_value : ℚ
  limit_value : ℚ
  violation_time : Option ℚ
deriving DecidableEq, Repr

/-- Queryset ordering by `start_time` (the model's default `Meta.ordering`
and the explicit `order_by('start_time')` calls): stable insertion sort. -/
def sortByStart (l : List DutyStatusRecord) : List DutyStatusRecord :=
  l.insertionSort (fun a b => a.start_time ≤ b.start_time)

/-- Rank used by `order_by('-end_time')`: a NULL `end_time` sorts below every
value (SQLite), so the descending sort puts open records last. -/
def endRank (r : DutyStatusRecord) : WithBot ℚ :=
  match r.end_time with
  | some e => (e : WithBot ℚ)
  | none => ⊥

/-- Queryset ordering by `order_by('-end_time')` (descending). -/
def sortByEndDesc (l : List DutyStatusRecord) : List DutyStatusRecord :=
  l.insertionSort (fun a b => endRank b ≤ endRank a)

/-- The status filter `duty_status__in=['driving', 'on_duty_not_driving']`
used throughout src/eld_logs/services.py. -/
def isDutyStatus (r : DutyStatusRecord) : Bool :=
  r.duty_status = Status.driving ∨ r.duty_status = Status.on_duty_not_driving

/-- Python's `int()` applied to a rational: truncation toward zero. -/
def pyInt (q : ℚ) : ℤ :=
  if 0 ≤ q then ⌊q⌋ else ⌈q⌉

/-- `HOSService.get_current_cycle_hours` (src/eld_logs/services.py lines
65-100): sum of closed driving / on-duty-not-driving durations over the
driver's rolling window of logs ending at `date`. -/
def get_current_cycle_hours (ct : CycleType) (logs : List ELDLog) (date : ℤ) : ℚ :=
  let days_back : ℤ := if ct = CycleType.cycle_70_8 then 8 else 7
  let start_date := date - (days_back - 1)
  let inRange := logs.filter (fun l => decide (start_date ≤ l.log_date ∧ l.log_date ≤ date))
  (inRange.map (fun l =>
    (((l.duty_records.filter isDutyStatus).filterMap
        (fun r => r.end_time.map (fun e => e - r.start_time))).sum))).sum

/-- `HOSService._check_daily_driving_limit` (src/eld_logs/services.py lines
133-153): flag when the closed driving durations of the log exceed 11 h. -/
def check_daily_driving_limit (log : ELDLog) : Option HOSViolation :=
  let driving_records := sortByStart (log.duty_records.filter (fun r => r.duty_status = Status.driving))
  let total_driving_hours :=
    (driving_records.filterMap (fun r => r.end_time.map (fun e => e - r.start_time))).sum
  if total_driving_hours > 11 then
    some { violation_type := ViolationType.drive_11h
           severity := Severity.violation
           actual_value := total_driving_hours
           limit_value := 11
           violation_time := driving_records.getLast?.bind (fun r => r.end_time) }
  else none

/-- `HOSService._check_daily_duty_limit` (src/eld_logs/services.py lines
155-182): flag when the window from the first duty record's start to the
last duty record's end exceeds 14 h. -/
def check_daily_duty_limit (log : ELDLog) : Option HOSViolation :=
  let duty_records := sortByStart (log.duty_records.filter isDutyStatus)
  match duty_records.head?, duty_records.getLast? with
  | some first_duty, some last_duty =>
    match last_duty.end_time with
    | some e =>
      let total_duty_hours := e - first_duty.start_time
      if total_duty_hours > 14 then
        some { violation_type := ViolationType.duty_14h
               severity := Severity.violation
               actual_value := total_duty_hours
               limit_value := 14
               violation_time := some e }
      else none
    | none => none
  | _, _ => none

/-- `HOSService._check_cycle_limit` (src/eld_logs/services.py lines 184-205). -/
def check_cycle_limit (ct : CycleType) (logs : List ELDLog) (log : ELDLog) :
    Option HOSViolation :=
  let current_cycle_hours := get_current_cycle_hours ct logs log.log_date
  let limit : ℚ := if ct = CycleType.cycle_70_8 then 70 else 60
  let vt := if ct = CycleType.cycle_70_8 then ViolationType.cycle_70h else ViolationType.cycle_60h
  if current_cycle_hours > limit then
    some { violation_type := vt
           severity := Severity.critical
           actual_value := current_cycle_hours
           limit_value := limit
           violation_time := none }
  else none

/-- Loop body of `HOSService._check_break_requirement` (src/eld_logs/services.py
lines 207-241): walk closed driving records in start order, resetting the
continuous-driving counter after a ≥ 30-minute gap since the previous
driving record's end, flagging once the counter exceeds 8 h. -/
def breakLoop (l : List DutyStatusRecord) (continuous_driving : ℚ)
    (last_break_time : Option ℚ) : Option HOSViolation :=
  match l, continuous_driving, last_break_time with
  | [], _, _ => none
  | r :: rs, continuous_driving, last_break_time =>
    match r.end_time with
    | none => breakLoop rs continuous_driving last_break_time
    | some e =>
      let c₀ :=
        match last_break_time with
        | some t => if r.start_time - t ≥ 1/2 then 0 else continuous_driving
        | none => continuous_driving
      let c₁ := c₀ + (e - r.start_time)
      if c₁ > 8 then
        some { violation_type := ViolationType.rest_break
               severity := Severity.violation
               actual_value := c₁
               limit_value := 8
               violation_time := some e }
      else breakLoop rs c₁ (some e)

/-- `HOSService._check_break_requirement` (src/eld_logs/services.py lines
207-241). -/
def check_break_requirement (log : ELDLog) : Option HOSViolation :=
  breakLoop (sortByStart (log.duty_records.filter (fun r => r.duty_status = Status.driving))) 0 none

/-- `ELDLog.objects.get(driver=..., log_date=...)` for the single driver in
scope: the (unique, by the model's `unique_together`) log at that date. -/
def findLogByDate (logs : List ELDLog) (date : ℤ) : Option ELDLog :=
  logs.find? (fun l => l.log_date = date)

/-- `HOSService._check_daily_rest_requirement` (src/eld_logs/services.py lines
243-277): flag when the gap between the previous day's last duty record end
and the current day's first duty record start is under 10 h. -/
def check_daily_rest_requirement (logs : List ELDLog) (log : ELDLog) :
    Option HOSViolation :=
  match findLogByDate logs (log.log_date - 1) with
  | none => none
  | some previous_log =>
    let last_duty_previous := (sortByEndDesc (previous_log.duty_records.filter isDutyStatus)).head?
    let first_duty_current := (sortByStart (log.duty_records.filter isDutyStatus)).head?
    match last_duty_previous, first_duty_current with
    | some lp, some fc =>
      match lp.end_time with
      | some e =>
        let rest_hours := fc.start_time - e
        if rest_hours < 10 then
          some { violation_type := ViolationType.daily_rest
                 severity := Severity.violation
                 actual_value := rest_hours
                 limit_value := 10
                 violation_time := some fc.start_time }
        else none
      | none => none
    | _, _ => none

/-- `HOSService.check_hos_violations` (src/eld_logs/services.py lines
102-131): the five rule checks in order, collecting the non-`None` results. -/
def check_hos_violations (ct : CycleType) (logs : List ELDLog) (log : ELDLog) :
    List HOSViolation :=
  [check_daily_driving_limit log,
   check_daily_duty_limit log,
   check_cycle_limit ct logs log,
   check_break_requirement log,
   check_daily_rest_requirement logs log].filterMap id

/-- Loop of `HOSService._update_eld_log_totals` (src/eld_logs/services.py lines
379-406): accumulate (drive, duty, off_duty, sleeper) durations over the
closed records. -/
def computeTotals : List DutyStatusRecord → ℚ × ℚ × ℚ × ℚ
  | [] => (0, 0, 0, 0)
  | r :: rs =>
    let (d, du, o, s) := computeTotals rs
    match r.end_time with
    | none => (d, du, o, s)
    | some e =>
      let duration := e - r.start_time
      match r.duty_status with
      | Status.driving => (d + duration, du + duration, o, s)
      | Status.on_duty_not_driving => (d, du + duration, o, s)
      | Status.off_duty => (d, du, o + duration, s)
      | Status.sleeper_berth => (d, du, o, s + duration)

/-- Replace the first occurrence of `p` in the list by `p` closed at `t`
(the `previous_record.end_time = start_time; previous_record.save()` row
update inside `create_duty_status_record`). -/
def closeRecordAt : List DutyStatusRecord → DutyStatusRecord → ℚ → List DutyStatusRecord
  | [], _, _ => []
  | r :: rs, p, t =>
    if r = p then { r with end_time := some t } :: rs
    else r :: closeRecordAt rs p t

/-- `HOSService.create_duty_status_record` (src/eld_logs/services.py lines
335-377): close the log's open record (if any) at `start_time`, append the
new open record, recompute the cached totals, re-run the detector and set
the two violation flags.  `logs` is the driver's stored history (used by the
cycle and daily-rest checks); the result pairs the updated log with the new
record.  The code has no validation of `start_time` and no failure path. -/
def create_duty_status_record (ct : CycleType) (logs : List ELDLog)
    (eld_log : ELDLog) (duty_status : Status) (start_time : ℚ) :
    ELDLog × DutyStatusRecord :=
  let previous_record :=
    ((sortByStart eld_log.duty_records).filter (fun r => r.end_time.isNone)).getLast?
  let records₁ :=
    match previous_record with
    | none => eld_log.duty_records
    | some p => closeRecordAt eld_log.duty_records p start_time
  let record : DutyStatusRecord :=
    { duty_status := duty_status, start_time := start_time, end_time := none }
  let records₂ := records₁ ++ [record]
  let (td, tdu, toff, ts) := computeTotals records₂
  let log₁ : ELDLog :=
    { eld_log with
      duty_records := records₂
      total_drive_time := td
      total_duty_time := tdu
      total_off_duty_time := toff
      total_sleeper_time := ts }
  let logs₁ := logs.map (fun l => if l.log_date = log₁.log_date then log₁ else l)
  let violations := check_hos_violations ct logs₁ log₁
  let log₂ :=
    if violations ≠ [] then
      { log₁ with
        has_driving_violation := violations.any (fun v => v.violation_type = ViolationType.drive_11h)
        has_duty_violation := violations.any (fun v => v.violation_type = ViolationType.duty_14h) }
    else log₁
  (log₂, record)

/-- `HOSService._add_duty_record` (src/eld_logs/services.py lines 526-548)
iterated over a day plan: each step emits a closed record starting at the
running clock and advances the clock by the step's duration (in hours; the
Python code passes minutes and divides by 60 again when building
`end_time`). -/
def buildRecords (t : ℚ) : List (Status × ℚ) → List DutyStatusRecord
  | [] => []
  | (st, dur) :: rest =>
    { duty_status := st, start_time := t, end_time := some (t + dur) } :: buildRecords (t + dur) rest

/-- The sequence of `_add_duty_record` calls performed by
`HOSService._generate_daily_duty_records` (src/eld_logs/services.py lines
450-524) for day `day_number` of a trip of `total_trip_hours` driving hours,
as (status, duration-in-hours) steps; the running clock starts at 06:00 of
the log's date, and the final `off_duty` filler runs to the next midnight. -/
def dutyPlan (day_number : ℕ) (total_trip_hours : ℚ) : List (Status × ℚ) :=
  let remaining₀ : ℚ := min 11 (total_trip_hours - day_number * 11)
  let mid : List (Status × ℚ) :=
    if remaining₀ > 0 then
      -- pickup time allocation (1 hour on first day)
      let (pickup, remaining₁) :=
        if day_number = 0 then ([(Status.on_duty_not_driving, (1 : ℚ))], remaining₀ - 1)
        else ([], remaining₀)
      -- drive for up to 8 hours (or 7 if pickup was done)
      let max_driving : ℚ := if day_number > 0 then 8 else 7
      let driving_time := min max_driving remaining₁
      let remaining₂ := remaining₁ - driving_time
      pickup ++ [(Status.driving, driving_time)] ++
        (if remaining₂ > 0 then
          -- 30-minute meal break, then up to 3 more driving hours, saving
          -- 1 hour for dropoff on the final day
          let is_final_day := (day_number : ℤ) = pyInt (total_trip_hours / 11)
          let max_additional_driving :=
            min 3 (remaining₂ - (if is_final_day then 1 else 0))
          [(Status.off_duty, (1/2 : ℚ))] ++
            (if max_additional_driving > 0 then [(Status.driving, max_additional_driving)] else []) ++
            (if is_final_day then [(Status.on_duty_not_driving, (1 : ℚ))] else [])
        else [])
    else []
  -- pre-trip inspection, the day's work, post-trip inspection
  let core := [(Status.on_duty_not_driving, (1/4 : ℚ))] ++ mid ++ [(Status.on_duty_not_driving, (1/4 : ℚ))]
  let current_time : ℚ := (24 * day_number + 6) + (core.map (fun s => s.2)).sum
  let end_of_day : ℚ := 24 * (day_number + 1)
  core ++ (if current_time < end_of_day then [(Status.off_duty, end_of_day - current_time)] else [])

/-- `HOSService._generate_daily_duty_records` (src/eld_logs/services.py lines
450-524): the records of one simulated day, starting at 06:00. -/
def generate_daily_duty_records (day_number : ℕ) (total_trip_hours : ℚ) :
    List DutyStatusRecord :=
  buildRecords (24 * day_number + 6) (dutyPlan day_number total_trip_hours)

/-- A freshly created `ELDLog` row (`ELDLog.objects.get_or_create` defaults:
zero totals, no flags) populated by `_generate_daily_duty_records`.  Note the
simulator writes records through `_add_duty_record`, which never updates the
cached totals, so they stay at their defaults. -/
def mkTripDayLog (day_number : ℕ) (total_trip_hours : ℚ) : ELDLog :=
  { log_date := (day_number : ℤ)
    duty_records := generate_daily_duty_records day_number total_trip_hours
    total_drive_time := 0
    total_duty_time := 0
    total_off_duty_time := 0
    total_sleeper_time := 0
    has_driving_violation := false
    has_duty_violation := false }

/-- `HOSService.generate_trip_eld_logs` (src/eld_logs/services.py lines
408-448) for a driver with no pre-existing logs in the trip's date range:
`max(1, int(total_hours / 11) + 1)` fresh daily logs, day 0 at the trip's
start date (taken as day 0). -/
def generate_trip_eld_logs (total_hours : ℚ) : List ELDLog :=
  let days_needed : ℕ := max 1 (pyInt (total_hours / 11) + 1).toNat
  (List.range days_needed).map (fun day => mkTripDayLog day total_hours)

/-- Spec-side quantity for the claims: the sum of the durations of a log's
closed driving intervals, in hours. -/
def drivingHours (log : ELDLog) : ℚ :=
  ((log.duty_records.filter (fun r => r.duty_status = Status.driving)).map
    DutyStatusRecord.duration).sum

/-- Spec-side quantity: closed driving plus on-duty-not-driving duration of
one log, in hours. -/
def logDutyHours (l : ELDLog) : ℚ :=
  ((l.duty_records.filter isDutyStatus).filterMap
    (fun r => r.end_time.map (fun e => e - r.start_time))).sum

/-- Number of open (NULL `end_time`) records of a list. -/
def countOpen (l : List DutyStatusRecord) : ℕ :=
  (l.filter (fun r => r.end_time.isNone)).length

/-- Spec-side aggregate: total `duration` of the closed records satisfying
`p` ("the sums recomputed from its closed intervals"). -/
def closedSumBy (p : DutyStatusRecord → Bool) (l : List DutyStatusRecord) : ℚ :=
  ((l.filter (fun r => p r && r.end_time.isSome)).map DutyStatusRecord.duration).sum

/- ===================== theorems ===================== -/

@[simp] theorem status_ne_od_sb : Status.off_duty ≠ Status.sleeper_berth := by decide

@[simp] theorem status_ne_od_dr : Status.off_duty ≠ Status.driving := by decide

@[simp] theorem status_ne_od_on : Status.off_duty ≠ Status.on_duty_not_driving := by decide

@[simp] theorem status_ne_sb_od : Status.sleeper_berth ≠ Status.off_duty := by decide

@[simp] theorem status_ne_sb_dr : Status.sleeper_berth ≠ Status.driving := by decide

@[simp] theorem status_ne_sb_on : Status.sleeper_berth ≠ Status.on_duty_not_driving := by decide

@[simp] theorem status_ne_dr_od : Status.driving ≠ Status.off_duty := by decide

@[simp] theorem status_ne_dr_sb : Status.driving ≠ Status.sleeper_berth := by decide

@[simp] theorem status_ne_dr_on : Status.driving ≠ Status.on_duty_not_driving := by decide

@[simp] theorem status_ne_on_od : Status.on_duty_not_driving ≠ Status.off_duty := by decide

@[simp] theorem status_ne_on_sb : Status.on_duty_not_driving ≠ Status.sleeper_berth := by decide

@[simp] theorem status_ne_on_dr : Status.on_duty_not_driving ≠ Status.driving := by decide

theorem sum_filterMap_duration (l : List DutyStatusRecord) :
    (l.filterMap (fun r => r.end_time.map (fun e => e - r.start_time))).sum
      = (l.map DutyStatusRecord.duration).sum := by
  induction l with
  | nil => rfl
  | cons r rs ih =>
    cases h : r.end_time with
    | none => simp [List.filterMap_cons, h, DutyStatusRecord.duration, ih]
    | some e => simp [List.filterMap_cons, h, DutyStatusRecord.duration, ih]

theorem sortByStart_perm (l : List DutyStatusRecord) : (sortByStart l).Perm l :=
  List.perm_insertionSort _ l

theorem sortByEndDesc_perm (l : List DutyStatusRecord) : (sortByEndDesc l).Perm l :=
  List.perm_insertionSort _ l

theorem sum_filterMap_sortByStart (l : List DutyStatusRecord)
    (f : DutyStatusRecord → Option ℚ) :
    ((sortByStart l).filterMap f).sum = (l.filterMap f).sum :=
  ((sortByStart_perm l).filterMap f).sum_eq

/-- C10: the `duration` property returns `timedelta(0)` for an open record
and `end_time - start_time` for a closed one; hence summing `duration` over
any record list counts only the closed records. -/
theorem C10_duration_of_open_is_zero :
    (∀ r : DutyStatusRecord,
      (r.end_time = none → r.duration = 0) ∧
      ∀ e, r.end_time = some e → r.duration = e - r.start_time) ∧
    ∀ l : List DutyStatusRecord,
      (l.map DutyStatusRecord.duration).sum
        = ((l.filter (fun r => r.end_time.isSome)).map DutyStatusRecord.duration).sum := by
  constructor
  · intro r
    constructor
    · intro h; simp [DutyStatusRecord.duration, h]
    · intro e h; simp [DutyStatusRecord.duration, h]
  · intro l
    induction l with
    | nil => rfl
    | cons r rs ih =>
      cases h : r.end_time with
      | none => simp [h, DutyStatusRecord.duration, ih]
      | some e => simp [h, DutyStatusRecord.duration, ih]

theorem C10_duration_witness :
    (DutyStatusRecord.mk Status.driving 3 none).duration = 0 ∧
    (DutyStatusRecord.mk Status.driving 3 (some 5)).duration = 2 := by
  refine ⟨(C10_duration_of_open_is_zero.1 _).1 rfl, ?_⟩
  have h := (C10_duration_of_open_is_zero.1 (DutyStatusRecord.mk Status.driving 3 (some 5))).2 5 rfl
  rw [h]; norm_num

theorem closeRecordAt_length (l : List DutyStatusRecord) (p : DutyStatusRecord) (t : ℚ) :
    (closeRecordAt l p t).length = l.length := by
  induction l with
  | nil => rfl
  | cons r rs ih =>
    by_cases h : r = p <;> simp [closeRecordAt, h, ih]

theorem create_duty_status_record_records (ct : CycleType) (logs : List ELDLog)
    (eld_log : ELDLog) (duty_status : Status) (start_time : ℚ) :
    (create_duty_status_record ct logs eld_log duty_status start_time).1.duty_records
      = (match ((sortByStart eld_log.duty_records).filter
            (fun r => r.end_time.isNone)).getLast? with
         | none => eld_log.duty_records
         | some p => closeRecordAt eld_log.duty_records p start_time)
        ++ [⟨duty_status, start_time, none⟩] := by
  unfold create_duty_status_record
  cases ((sortByStart eld_log.duty_records).filter (fun r => r.end_time.isNone)).getLast? <;>
    simp only [] <;> split <;> rfl

/-- C1 (amended): the mutator performs no start-time-ordering validation.
Every append is accepted and performed: the record list always grows by
exactly one, ending with the new open record, whatever `start_time` is. -/
theorem C1_mutator_has_no_ordering_check (ct : CycleType) (logs : List ELDLog)
    (eld_log : ELDLog) (duty_status : Status) (start_time : ℚ) :
    (create_duty_status_record ct logs eld_log duty_status start_time).1.duty_records.length
        = eld_log.duty_records.length + 1 ∧
    (create_duty_status_record ct logs eld_log duty_status start_time).1.duty_records.getLast?
        = some ⟨duty_status, start_time, none⟩ := by
  rw [create_duty_status_record_records]
  cases h : ((sortByStart eld_log.duty_records).filter (fun r => r.end_time.isNone)).getLast? <;>
    simp [closeRecordAt_length]

/-- C1 counterexample: a log whose last (and only) interval starts at 10:00;
appending a record starting at 05:00 — before the last interval's start —
does not fail and does mutate: the stored record list ends up with both the
old interval and the new out-of-order open one. -/
theorem C1_counterexample :
    (create_duty_status_record CycleType.cycle_70_8
        [⟨0, [⟨Status.driving, 10, some 11⟩], 1, 1, 0, 0, false, false⟩]
        ⟨0, [⟨Status.driving, 10, some 11⟩], 1, 1, 0, 0, false, false⟩
        Status.off_duty 5).1.duty_records
      = [⟨Status.driving, 10, some 11⟩, ⟨Status.off_duty, 5, none⟩]
    ∧ (5 : ℚ) < 10 := by
  rw [create_duty_status_record_records]
  norm_num [sortByStart, List.insertionSort, List.orderedInsert]

theorem pyInt_of_nonneg (q : ℚ) (h : 0 ≤ q) : pyInt q = ⌊q⌋ := by
  rw [pyInt, if_pos h]

/-- C2 counterexample: the claim includes `total_trip_hours = 11` in the
one-day range `(0, 11]`, but the simulator produces
`max(1, int(11/11) + 1) = 2` daily logs there, not 1. -/
theorem C2_counterexample : ¬ ((generate_trip_eld_logs 11).length = 1) := by
  have h1 : pyInt (1:ℚ) = 1 := by
    rw [pyInt_of_nonneg _ (by norm_num)]; norm_num
  norm_num [generate_trip_eld_logs, h1]
  decide

/-- C3 counterexample: for a trip of 22 driving hours the simulator produces
`max(1, int(22/11) + 1) = 3` daily logs, not the 2 the claim states. -/
theorem C3_counterexample : ¬ ((generate_trip_eld_logs 22).length = 2) := by
  have h1 : pyInt (2:ℚ) = 2 := by
    rw [pyInt_of_nonneg _ (by norm_num)]; norm_num
  norm_num [generate_trip_eld_logs, h1]
  decide

theorem trip22_day0 :
    generate_daily_duty_records 0 22
      = [⟨Status.on_duty_not_driving, 6, some (25/4)⟩,
         ⟨Status.on_duty_not_driving, 25/4, some (29/4)⟩,
         ⟨Status.driving, 29/4, some (57/4)⟩,
         ⟨Status.off_duty, 57/4, some (59/4)⟩,
         ⟨Status.driving, 59/4, some (71/4)⟩,
         ⟨Status.on_duty_not_driving, 71/4, some 18⟩,
         ⟨Status.off_duty, 18, some 24⟩] := by
  have h1 : pyInt (2:ℚ) = 2 := by
    rw [pyInt_of_nonneg _ (by norm_num)]; norm_num
  rw [generate_daily_duty_records, dutyPlan]
  norm_num [h1, buildRecords, min_def]

theorem trip22_day1 :
    generate_daily_duty_records 1 22
      = [⟨Status.on_duty_not_driving, 30, some (121/4)⟩,
         ⟨Status.driving, 121/4, some (153/4)⟩,
         ⟨Status.off_duty, 153/4, some (155/4)⟩,
         ⟨Status.driving, 155/4, some (167/4)⟩,
         ⟨Status.on_duty_not_driving, 167/4, some 42⟩,
         ⟨Status.off_duty, 42, some 48⟩] := by
  have h1 : pyInt (2:ℚ) = 2 := by
    rw [pyInt_of_nonneg _ (by norm_num)]; norm_num
  rw [generate_daily_duty_records, dutyPlan]
  norm_num [h1, buildRecords, min_def]

theorem trip22_day2 :
    generate_daily_duty_records 2 22
      = [⟨Status.on_duty_not_driving, 54, some (217/4)⟩,
         ⟨Status.on_duty_not_driving, 217/4, some (109/2)⟩,
         ⟨Status.off_duty, 109/2, some 72⟩] := by
  rw [generate_daily_duty_records, dutyPlan]
  norm_num [buildRecords, min_def]

theorem trip22_logs :
    generate_trip_eld_logs 22
      = [⟨0, [⟨Status.on_duty_not_driving, 6, some (25/4)⟩,
              ⟨Status.on_duty_not_driving, 25/4, some (29/4)⟩,
              ⟨Status.driving, 29/4, some (57/4)⟩,
              ⟨Status.off_duty, 57/4, some (59/4)⟩,
              ⟨Status.driving, 59/4, some (71/4)⟩,
              ⟨Status.on_duty_not_driving, 71/4, some 18⟩,
              ⟨Status.off_duty, 18, some 24⟩], 0, 0, 0, 0, false, false⟩,
         ⟨1, [⟨Status.on_duty_not_driving, 30, some (121/4)⟩,
              ⟨Status.driving, 121/4, some (153/4)⟩,
              ⟨Status.off_duty, 153/4, some (155/4)⟩,
              ⟨Status.driving, 155/4, some (167/4)⟩,
              ⟨Status.on_duty_not_driving, 167/4, some 42⟩,
              ⟨Status.off_duty, 42, some 48⟩], 0, 0, 0, 0, false, false⟩,
         ⟨2, [⟨Status.on_duty_not_driving, 54, some (217/4)⟩,
              ⟨Status.on_duty_not_driving, 217/4, some (109/2)⟩,
              ⟨Status.off_duty, 109/2, some 72⟩], 0, 0, 0, 0, false, false⟩] := by
  have h1 : pyInt (2:ℚ) = 2 := by
    rw [pyInt_of_nonneg _ (by norm_num)]; norm_num
  have h2 : max 1 (Int.toNat (2 + 1)) = 3 := by decide
  have h3 : Int.toNat 3 = 3 := rfl
  norm_num [generate_trip_eld_logs, h1, h2, h3, List.range_succ, mkTripDayLog,
    trip22_day0, trip22_day1, trip22_day2]

set_option maxHeartbeats 1600000 in
/-- C3 (amended): simulating a 22-hour trip for a `70_8` driver with no prior
logs produces exactly 3 daily logs.  Day 0: pre-trip, 1 h pickup, a 7 h
driving block, a 30-minute off-duty break, a second 3 h driving block,
post-trip, off duty to midnight.  Day 1: pre-trip, an 8 h driving block, a
30-minute break, a further 3 h driving block, post-trip, off duty.  Day 2
has no driving at all.  The detector reports zero violations on every day. -/
theorem C3_trip22_schedule :
    (generate_trip_eld_logs 22).map (fun l => l.duty_records)
      = [[⟨Status.on_duty_not_driving, 6, some (25/4)⟩,
          ⟨Status.on_duty_not_driving, 25/4, some (29/4)⟩,
          ⟨Status.driving, 29/4, some (57/4)⟩,
          ⟨Status.off_duty, 57/4, some (59/4)⟩,
          ⟨Status.driving, 59/4, some (71/4)⟩,
          ⟨Status.on_duty_not_driving, 71/4, some 18⟩,
          ⟨Status.off_duty, 18, some 24⟩],
         [⟨Status.on_duty_not_driving, 30, some (121/4)⟩,
          ⟨Status.driving, 121/4, some (153/4)⟩,
          ⟨Status.off_duty, 153/4, some (155/4)⟩,
          ⟨Status.driving, 155/4, some (167/4)⟩,
          ⟨Status.on_duty_not_driving, 167/4, some 42⟩,
          ⟨Status.off_duty, 42, some 48⟩],
         [⟨Status.on_duty_not_driving, 54, some (217/4)⟩,
          ⟨Status.on_duty_not_driving, 217/4, some (109/2)⟩,
          ⟨Status.off_duty, 109/2, some 72⟩]]
    ∧ (generate_trip_eld_logs 22).map
        (fun l => check_hos_violations CycleType.cycle_70_8 (generate_trip_eld_logs 22) l)
      = [[], [], []]
    ∧ (generate_trip_eld_logs 22).map drivingHours = [10, 11, 0] := by
  rw [trip22_logs]
  refine ⟨by norm_num, ?_,
    by norm_num [drivingHours, DutyStatusRecord.duration, List.filter_cons]⟩
  norm_num [check_hos_violations, check_daily_driving_limit, check_daily_duty_limit,
    check_cycle_limit, check_break_requirement, check_daily_rest_requirement,
    get_current_cycle_hours, breakLoop, findLogByDate, List.find?, isDutyStatus,
    sortByStart, sortByEndDesc, endRank, WithBot.coe_le_coe, ← WithBot.coe_ofNat,
    List.insertionSort, List.orderedInsert, DutyStatusRecord.duration,
    List.filter_cons, List.filterMap_cons] <;> norm_num

theorem sum_map_filter_groupByDate (l : List ELDLog) (f : ELDLog → ℚ) (s : Finset ℤ) :
    ((l.filter (fun x => decide (x.log_date ∈ s))).map f).sum
      = ∑ d ∈ s, ((l.filter (fun x => decide (x.log_date = d))).map f).sum := by
  induction l with
  | nil => simp
  | cons x xs ih =>
    by_cases hx : x.log_date ∈ s
    · have : ∀ d ∈ s, ((List.filter (fun y => decide (y.log_date = d)) (x :: xs)).map f).sum
          = (if x.log_date = d then f x else 0)
            + ((List.filter (fun y => decide (y.log_date = d)) xs).map f).sum := by
        intro d _
        by_cases hxd : x.log_date = d <;> simp [List.filter_cons, hxd]
      rw [Finset.sum_congr rfl this, Finset.sum_add_distrib, Finset.sum_ite_eq, if_pos hx]
      simp [List.filter_cons, hx, ih]
    · have : ∀ d ∈ s, ((List.filter (fun y => decide (y.log_date = d)) (x :: xs)).map f).sum
          = ((List.filter (fun y => decide (y.log_date = d)) xs).map f).sum := by
        intro d hd
        have hxd : x.log_date ≠ d := fun h => hx (h ▸ hd)
        simp [List.filter_cons, hxd]
      rw [Finset.sum_congr rfl this, ← ih]
      simp [List.filter_cons, hx]

/-- C4: `get_current_cycle_hours` is the sum, over the inclusive date window
`[as_of_date − (window−1), as_of_date]` with window = 8 days for a 70/8
driver and 7 days otherwise, of the per-date totals of closed driving and
on-duty-not-driving durations; a date with no log contributes 0 (its
grouped-log list is empty, so its summand is an empty sum). -/
theorem C4_cycle_hours_window (ct : CycleType) (logs : List ELDLog) (date : ℤ) :
    get_current_cycle_hours ct logs date
      = ∑ d ∈ Finset.Icc (date - ((if ct = CycleType.cycle_70_8 then 8 else 7) - 1)) date,
          ((logs.filter (fun l => decide (l.log_date = d))).map logDutyHours).sum := by
  unfold get_current_cycle_hours
  have hfil : logs.filter (fun l => decide ((date - ((if ct = CycleType.cycle_70_8 then 8 else 7) - 1)) ≤ l.log_date ∧ l.log_date ≤ date))
      = logs.filter (fun l => decide (l.log_date ∈ Finset.Icc (date - ((if ct = CycleType.cycle_70_8 then 8 else 7) - 1)) date)) := by
    apply List.filter_congr
    intro x _
    simp [Finset.mem_Icc]
  simp only []
  rw [hfil, sum_map_filter_groupByDate]
  rfl

theorem computeTotals_eq (l : List DutyStatusRecord) :
    computeTotals l
      = (closedSumBy (fun r => r.duty_status = Status.driving) l,
         closedSumBy isDutyStatus l,
         closedSumBy (fun r => r.duty_status = Status.off_duty) l,
         closedSumBy (fun r => r.duty_status = Status.sleeper_berth) l) := by
  induction l with
  | nil => rfl
  | cons r rs ih =>
    cases he : r.end_time with
    | none =>
      simp [computeTotals, ih, he, closedSumBy, List.filter_cons]
    | some e =>
      cases hs : r.duty_status <;>
        simp [computeTotals, ih, he, hs, closedSumBy, List.filter_cons,
          isDutyStatus, DutyStatusRecord.duration]
      all_goals try exact ⟨trivial, trivial⟩
      all_goals try exact ⟨by ring, by ring⟩
      all_goals ring

/-- C5: after any mutation through `create_duty_status_record`, the four
cached aggregate durations of the updated log equal the sums recomputed
from its closed intervals (driving; driving + on-duty-not-driving; off-duty;
sleeper-berth); open intervals contribute nothing. -/
theorem C5_totals_are_write_through (ct : CycleType) (logs : List ELDLog)
    (eld_log : ELDLog) (duty_status : Status) (start_time : ℚ) :
    ((create_duty_status_record ct logs eld_log duty_status start_time).1.total_drive_time
        = closedSumBy (fun r => r.duty_status = Status.driving)
            (create_duty_status_record ct logs eld_log duty_status start_time).1.duty_records)
    ∧ ((create_duty_status_record ct logs eld_log duty_status start_time).1.total_duty_time
        = closedSumBy isDutyStatus
            (create_duty_status_record ct logs eld_log duty_status start_time).1.duty_records)
    ∧ ((create_duty_status_record ct logs eld_log duty_status start_time).1.total_off_duty_time
        = closedSumBy (fun r => r.duty_status = Status.off_duty)
            (create_duty_status_record ct logs eld_log duty_status start_time).1.duty_records)
    ∧ ((create_duty_status_record ct logs eld_log duty_status start_time).1.total_sleeper_time
        = closedSumBy (fun r => r.duty_status = Status.sleeper_berth)
            (create_duty_status_record ct logs eld_log duty_status start_time).1.duty_records) := by
  unfold create_duty_status_record
  cases ((sortByStart eld_log.duty_records).filter (fun r => r.end_time.isNone)).getLast? <;>
    simp only [computeTotals_eq] <;> split <;> simp

theorem countOpen_append (l₁ l₂ : List DutyStatusRecord) :
    countOpen (l₁ ++ l₂) = countOpen l₁ + countOpen l₂ := by
  simp [countOpen, List.filter_append]

theorem countOpen_perm {l₁ l₂ : List DutyStatusRecord} (h : l₁.Perm l₂) :
    countOpen l₁ = countOpen l₂ :=
  (h.filter _).length_eq

theorem closeRecordAt_countOpen (l : List DutyStatusRecord) (p : DutyStatusRecord)
    (t : ℚ) (hp : p ∈ l) (hopen : p.end_time = none) :
    countOpen (closeRecordAt l p t) + 1 = countOpen l := by
  induction l with
  | nil => cases hp
  | cons r rs ih =>
    by_cases h : r = p
    · subst h
      simp [closeRecordAt, countOpen, List.filter_cons, hopen]
    · have hp' : p ∈ rs := by
        cases List.mem_cons.mp hp with
        | inl he => exact absurd he.symm h
        | inr hm => exact hm
      have := ih hp'
      cases he : r.end_time <;>
        simp [closeRecordAt, h, countOpen, List.filter_cons, he] at this ⊢ <;>
        omega

theorem closeRecordAt_mem (l : List DutyStatusRecord) (p : DutyStatusRecord)
    (t : ℚ) (hp : p ∈ l) :
    { p with end_time := some t } ∈ closeRecordAt l p t := by
  induction l with
  | nil => cases hp
  | cons r rs ih =>
    by_cases h : r = p
    · subst h; simp [closeRecordAt]
    · have hp' : p ∈ rs := by
        cases List.mem_cons.mp hp with
        | inl he => exact absurd he.symm h
        | inr hm => exact hm
      simp only [closeRecordAt, if_neg h]
      exact List.mem_cons_of_mem _ (ih hp')

theorem previous_record_spec (recs : List DutyStatusRecord) (p : DutyStatusRecord)
    (h : ((sortByStart recs).filter (fun r => r.end_time.isNone)).getLast? = some p) :
    p ∈ recs ∧ p.end_time = none := by
  have hmem : p ∈ (sortByStart recs).filter (fun r => r.end_time.isNone) :=
    List.mem_of_mem_getLast? (by simp [h, Option.mem_def])
  have h2 := List.mem_filter.mp hmem
  refine ⟨(sortByStart_perm recs).subset h2.1, ?_⟩
  simpa [Option.isNone_iff_eq_none] using h2.2

theorem previous_none_no_open (recs : List DutyStatusRecord)
    (h : ((sortByStart recs).filter (fun r => r.end_time.isNone)).getLast? = none) :
    countOpen recs = 0 := by
  have hnil : (sortByStart recs).filter (fun r => r.end_time.isNone) = [] :=
    List.getLast?_eq_none_iff.mp h
  have h0 : countOpen (sortByStart recs) = 0 := by
    simp [countOpen, hnil]
  rw [← countOpen_perm (sortByStart_perm recs), h0]

theorem open_record_unique (recs : List DutyStatusRecord)
    (h : countOpen recs ≤ 1) {p r : DutyStatusRecord}
    (hp : p ∈ recs) (hpo : p.end_time = none)
    (hr : r ∈ recs) (hro : r.end_time = none) : r = p := by
  have hpf : p ∈ recs.filter (fun x => x.end_time.isNone) :=
    List.mem_filter.mpr ⟨hp, by simp [hpo]⟩
  have hrf : r ∈ recs.filter (fun x => x.end_time.isNone) :=
    List.mem_filter.mpr ⟨hr, by simp [hro]⟩
  have hlen : (recs.filter (fun x => x.end_time.isNone)).length ≤ 1 := h
  interval_cases hl : (recs.filter (fun x => x.end_time.isNone)).length
  · rw [List.length_eq_zero] at hl
    rw [hl] at hpf
    cases hpf
  · obtain ⟨a, ha⟩ := List.length_eq_one.mp hl
    rw [ha] at hpf hrf
    simp at hpf hrf
    rw [hpf, hrf]

/-- C6: the mutator preserves the at-most-one-open-interval invariant: when
the log has at most one open record, after `create_duty_status_record` it
has exactly one (the freshly appended record), and every record that was
open before appears in the result closed at exactly the new `start_time`. -/
theorem C6_open_interval_invariant (ct : CycleType) (logs : List ELDLog)
    (eld_log : ELDLog) (duty_status : Status) (start_time : ℚ)
    (h : countOpen eld_log.duty_records ≤ 1) :
    countOpen (create_duty_status_record ct logs eld_log duty_status start_time).1.duty_records = 1
    ∧ ∀ r ∈ eld_log.duty_records, r.end_time = none →
        { r with end_time := some start_time }
          ∈ (create_duty_status_record ct logs eld_log duty_status start_time).1.duty_records := by
  rw [create_duty_status_record_records]
  cases hprev : ((sortByStart eld_log.duty_records).filter (fun r => r.end_time.isNone)).getLast? with
  | none =>
    have h0 : countOpen eld_log.duty_records = 0 := previous_none_no_open _ hprev
    constructor
    · rw [countOpen_append, h0]
      rfl
    · intro r hr hro
      exfalso
      have hrf : r ∈ eld_log.duty_records.filter (fun x => x.end_time.isNone) :=
        List.mem_filter.mpr ⟨hr, by simp [hro]⟩
      have : (eld_log.duty_records.filter (fun x => x.end_time.isNone)).length = 0 := h0
      rw [List.length_eq_zero] at this
      rw [this] at hrf
      cases hrf
  | some p =>
    obtain ⟨hpmem, hpopen⟩ := previous_record_spec _ p hprev
    dsimp only
    constructor
    · rw [countOpen_append]
      have h1 : countOpen eld_log.duty_records = 1 := by
        have hge : 1 ≤ countOpen eld_log.duty_records := by
          have hpf : p ∈ eld_log.duty_records.filter (fun x => x.end_time.isNone) :=
            List.mem_filter.mpr ⟨hpmem, by simp [hpopen]⟩
          have := List.length_pos.mpr (List.ne_nil_of_mem hpf)
          exact this
        omega
      have h2 := closeRecordAt_countOpen eld_log.duty_records p start_time hpmem hpopen
      have h3 : countOpen [({ duty_status := duty_status, start_time := start_time, end_time := none } : DutyStatusRecord)] = 1 := rfl
      omega
    · intro r hr hro
      have hrp : r = p := open_record_unique _ h hpmem hpopen hr hro
      subst hrp
      exact List.mem_append_left _ (closeRecordAt_mem _ _ _ hr)

theorem C6_witness :
    countOpen [⟨Status.driving, 10, none⟩] ≤ 1
    ∧ countOpen (create_duty_status_record CycleType.cycle_70_8 []
        ⟨0, [⟨Status.driving, 10, none⟩], 0, 0, 0, 0, false, false⟩
        Status.off_duty 12).1.duty_records = 1
    ∧ ∀ r ∈ [(⟨Status.driving, 10, none⟩ : DutyStatusRecord)], r.end_time = none →
        { r with end_time := some 12 }
          ∈ (create_duty_status_record CycleType.cycle_70_8 []
              ⟨0, [⟨Status.driving, 10, none⟩], 0, 0, 0, 0, false, false⟩
              Status.off_duty 12).1.duty_records := by
  have h := C6_open_interval_invariant CycleType.cycle_70_8 []
    ⟨0, [⟨Status.driving, 10, none⟩], 0, 0, 0, 0, false, false⟩
    Status.off_duty 12 (by decide)
  exact ⟨by decide, h.1, h.2⟩

theorem check_daily_driving_limit_eq (log : ELDLog) :
    check_daily_driving_limit log
      = if drivingHours log > 11 then
          some { violation_type := ViolationType.drive_11h
                 severity := Severity.violation
                 actual_value := drivingHours log
                 limit_value := 11
                 violation_time :=
                   (sortByStart (log.duty_records.filter
                      (fun r => r.duty_status = Status.driving))).getLast?.bind
                     (fun r => r.end_time) }
        else none := by
  have hsum :
      ((sortByStart (log.duty_records.filter (fun r => r.duty_status = Status.driving))).filterMap
        (fun r => r.end_time.map (fun e => e - r.start_time))).sum = drivingHours log := by
    rw [sum_filterMap_sortByStart, sum_filterMap_duration]
    rfl
  unfold check_daily_driving_limit
  simp only [hsum]

theorem breakLoop_nil (c : ℚ) (lb : Option ℚ) : breakLoop [] c lb = none := rfl

theorem breakLoop_cons (r : DutyStatusRecord) (rs : List DutyStatusRecord)
    (c : ℚ) (lb : Option ℚ) :
    breakLoop (r :: rs) c lb
      = match r.end_time with
        | none => breakLoop rs c lb
        | some e =>
          let c₀ :=
            match lb with
            | some t => if r.start_time - t ≥ 1/2 then 0 else c
            | none => c
          let c₁ := c₀ + (e - r.start_time)
          if c₁ > 8 then
            some { violation_type := ViolationType.rest_break
                   severity := Severity.violation
                   actual_value := c₁
                   limit_value := 8
                   violation_time := some e }
          else breakLoop rs c₁ (some e) := rfl

@[simp] theorem vt_ne_duty_drive : ViolationType.duty_14h ≠ ViolationType.drive_11h := by decide

@[simp] theorem vt_ne_c70_drive : ViolationType.cycle_70h ≠ ViolationType.drive_11h := by decide

@[simp] theorem vt_ne_c60_drive : ViolationType.cycle_60h ≠ ViolationType.drive_11h := by decide

@[simp] theorem vt_ne_rb_drive : ViolationType.rest_break ≠ ViolationType.drive_11h := by decide

@[simp] theorem vt_ne_dr_drive : ViolationType.daily_rest ≠ ViolationType.drive_11h := by decide

theorem check_daily_duty_limit_not_drive {log : ELDLog} {v : HOSViolation}
    (h : check_daily_duty_limit log = some v) :
    ¬ v.violation_type = ViolationType.drive_11h := by
  unfold check_daily_duty_limit at h
  dsimp only at h
  repeat' split at h
  all_goals first
    | (exact Option.noConfusion h)
    | (injection h with h; rw [← h]; intro hc; exact ViolationType.noConfusion hc)

theorem check_cycle_limit_not_drive {ct : CycleType} {logs : List ELDLog} {log : ELDLog}
    {v : HOSViolation} (h : check_cycle_limit ct logs log = some v) :
    ¬ v.violation_type = ViolationType.drive_11h := by
  unfold check_cycle_limit at h
  dsimp only at h
  repeat' split at h
  all_goals first
    | (exact Option.noConfusion h)
    | (injection h with h; rw [← h]; intro hc; exact ViolationType.noConfusion hc)

theorem breakLoop_not_drive {v : HOSViolation} :
    ∀ (l : List DutyStatusRecord) (c : ℚ) (lb : Option ℚ),
      breakLoop l c lb = some v → ¬ v.violation_type = ViolationType.drive_11h := by
  intro l
  induction l with
  | nil => intro c lb h; cases h
  | cons r rs ih =>
    intro c lb h
    rw [breakLoop_cons] at h
    cases he : r.end_time with
    | none =>
      rw [he] at h
      exact ih _ _ h
    | some e =>
      rw [he] at h
      dsimp only at h
      split at h
      · injection h with h
        rw [← h]
        exact fun hc => ViolationType.noConfusion hc
      · exact ih _ _ h

theorem check_break_requirement_not_drive {log : ELDLog} {v : HOSViolation}
    (h : check_break_requirement log = some v) :
    ¬ v.violation_type = ViolationType.drive_11h :=
  breakLoop_not_drive _ _ _ h

theorem check_daily_rest_requirement_type {logs : List ELDLog} {log : ELDLog}
    {v : HOSViolation} (h : check_daily_rest_requirement logs log = some v) :
    v.violation_type = ViolationType.daily_rest := by
  unfold check_daily_rest_requirement at h
  dsimp only at h
  repeat' split at h
  all_goals first
    | (exact Option.noConfusion h)
    | (injection h with h; rw [← h])

theorem check_daily_rest_requirement_not_drive {logs : List ELDLog} {log : ELDLog}
    {v : HOSViolation} (h : check_daily_rest_requirement logs log = some v) :
    ¬ v.violation_type = ViolationType.drive_11h := by
  rw [check_daily_rest_requirement_type h]
  exact fun hc => ViolationType.noConfusion hc

theorem countP_filterMap_checks (p : HOSViolation → Bool)
    (o₁ o₂ o₃ o₄ o₅ : Option HOSViolation) :
    (List.filterMap id [o₁, o₂, o₃, o₄, o₅]).countP p
      = o₁.toList.countP p + o₂.toList.countP p + o₃.toList.countP p
        + o₄.toList.countP p + o₅.toList.countP p := by
  cases o₁ <;> cases o₂ <;> cases o₃ <;> cases o₄ <;> cases o₅ <;>
    simp [List.countP_cons, List.filterMap_cons] <;> omega

/-- C7: the detector raises a `drive_11h` violation exactly when the log's
closed driving durations sum to more than 11 h, carrying that sum as
`actual_value` and 11 as `limit_value`, and never more than one per run. -/
theorem C7_drive11_rule (ct : CycleType) (logs : List ELDLog) (log : ELDLog) :
    ((check_hos_violations ct logs log).countP
        (fun v => v.violation_type = ViolationType.drive_11h)
      = if drivingHours log > 11 then 1 else 0)
    ∧ ∀ v ∈ check_hos_violations ct logs log,
        v.violation_type = ViolationType.drive_11h →
          v.actual_value = drivingHours log ∧ v.limit_value = 11 := by
  constructor
  · unfold check_hos_violations
    rw [countP_filterMap_checks]
    have z2 : (check_daily_duty_limit log).toList.countP
        (fun v => v.violation_type = ViolationType.drive_11h) = 0 := by
      cases h2 : check_daily_duty_limit log with
      | none => rfl
      | some v => simp [List.countP_cons, check_daily_duty_limit_not_drive h2]
    have z3 : (check_cycle_limit ct logs log).toList.countP
        (fun v => v.violation_type = ViolationType.drive_11h) = 0 := by
      cases h3 : check_cycle_limit ct logs log with
      | none => rfl
      | some v => simp [List.countP_cons, check_cycle_limit_not_drive h3]
    have z4 : (check_break_requirement log).toList.countP
        (fun v => v.violation_type = ViolationType.drive_11h) = 0 := by
      cases h4 : check_break_requirement log with
      | none => rfl
      | some v => simp [List.countP_cons, check_break_requirement_not_drive h4]
    have z5 : (check_daily_rest_requirement logs log).toList.countP
        (fun v => v.violation_type = ViolationType.drive_11h) = 0 := by
      cases h5 : check_daily_rest_requirement logs log with
      | none => rfl
      | some v => simp [List.countP_cons, check_daily_rest_requirement_not_drive h5]
    have z1 : (check_daily_driving_limit log).toList.countP
        (fun v => v.violation_type = ViolationType.drive_11h)
        = if drivingHours log > 11 then 1 else 0 := by
      rw [check_daily_driving_limit_eq]
      by_cases hd : drivingHours log > 11
      · rw [if_pos hd, if_pos hd]
        simp [List.countP_cons]
      · rw [if_neg hd, if_neg hd]
        rfl
    rw [z1, z2, z3, z4, z5]
    omega
  · intro v hv hvt
    unfold check_hos_violations at hv
    rw [List.mem_filterMap] at hv
    obtain ⟨o, ho, hov⟩ := hv
    simp only [id] at hov
    subst hov
    simp only [List.mem_cons, List.not_mem_nil, or_false] at ho
    rcases ho with ho | ho | ho | ho | ho
    · replace ho := ho.symm
      rw [check_daily_driving_limit_eq] at ho
      by_cases hd : drivingHours log > 11
      · rw [if_pos hd] at ho
        injection ho with ho
        rw [← ho]
        exact ⟨rfl, rfl⟩
      · rw [if_neg hd] at ho
        cases ho
    · exact absurd hvt (check_daily_duty_limit_not_drive ho.symm)
    · exact absurd hvt (check_cycle_limit_not_drive ho.symm)
    · exact absurd hvt (check_break_requirement_not_drive ho.symm)
    · exact absurd hvt (check_daily_rest_requirement_not_drive ho.symm)

theorem C7_drive11_rule_witness :
    drivingHours ⟨0, [⟨Status.driving, 6, some 12⟩, ⟨Status.off_duty, 12, some (25/2)⟩,
        ⟨Status.driving, 25/2, some 18⟩], 0, 0, 0, 0, false, false⟩ = 23/2
    ∧ ((23:ℚ)/2 > 11)
    ∧ (check_hos_violations CycleType.cycle_70_8
        [⟨0, [⟨Status.driving, 6, some 12⟩, ⟨Status.off_duty, 12, some (25/2)⟩,
            ⟨Status.driving, 25/2, some 18⟩], 0, 0, 0, 0, false, false⟩]
        ⟨0, [⟨Status.driving, 6, some 12⟩, ⟨Status.off_duty, 12, some (25/2)⟩,
            ⟨Status.driving, 25/2, some 18⟩], 0, 0, 0, 0, false, false⟩).countP
        (fun v => v.violation_type = ViolationType.drive_11h) = 1
    ∧ ∀ v ∈ check_hos_violations CycleType.cycle_70_8
        [⟨0, [⟨Status.driving, 6, some 12⟩, ⟨Status.off_duty, 12, some (25/2)⟩,
            ⟨Status.driving, 25/2, some 18⟩], 0, 0, 0, 0, false, false⟩]
        ⟨0, [⟨Status.driving, 6, some 12⟩, ⟨Status.off_duty, 12, some (25/2)⟩,
            ⟨Status.driving, 25/2, some 18⟩], 0, 0, 0, 0, false, false⟩,
        v.violation_type = ViolationType.drive_11h →
          v.actual_value = 23/2 ∧ v.limit_value = 11 := by
  have hD : drivingHours ⟨0, [⟨Status.driving, 6, some 12⟩, ⟨Status.off_duty, 12, some (25/2)⟩,
      ⟨Status.driving, 25/2, some 18⟩], 0, 0, 0, 0, false, false⟩ = 23/2 := by
    norm_num [drivingHours, DutyStatusRecord.duration, List.filter_cons]
  have h := C7_drive11_rule CycleType.cycle_70_8
    [⟨0, [⟨Status.driving, 6, some 12⟩, ⟨Status.off_duty, 12, some (25/2)⟩,
        ⟨Status.driving, 25/2, some 18⟩], 0, 0, 0, 0, false, false⟩]
    ⟨0, [⟨Status.driving, 6, some 12⟩, ⟨Status.off_duty, 12, some (25/2)⟩,
        ⟨Status.driving, 25/2, some 18⟩], 0, 0, 0, 0, false, false⟩
  rw [hD] at h
  refine ⟨hD, by norm_num, ?_, ?_⟩
  · rw [h.1, if_pos (by norm_num)]
  · intro v hv hvt
    exact h.2 v hv hvt

instance : IsTotal DutyStatusRecord (fun a b => a.start_time ≤ b.start_time) :=
  ⟨fun a b => le_total a.start_time b.start_time⟩

instance : IsTrans DutyStatusRecord (fun a b => a.start_time ≤ b.start_time) :=
  ⟨fun _ _ _ => le_trans⟩

instance : IsTotal DutyStatusRecord (fun a b => endRank b ≤ endRank a) :=
  ⟨fun a b => le_total (endRank b) (endRank a)⟩

instance : IsTrans DutyStatusRecord (fun a b => endRank b ≤ endRank a) :=
  ⟨fun _ _ _ hab hbc => le_trans hbc hab⟩

theorem sortByStart_head_min (l : List DutyStatusRecord) (hne : l ≠ []) :
    ∃ r₀, (sortByStart l).head? = some r₀ ∧ r₀ ∈ l
      ∧ ∀ r ∈ l, r₀.start_time ≤ r.start_time := by
  have hp := sortByStart_perm l
  have hs : List.Sorted (fun a b => a.start_time ≤ b.start_time) (sortByStart l) :=
    List.sorted_insertionSort _ l
  cases hsl : sortByStart l with
  | nil =>
    rw [hsl] at hp
    exact absurd hp.symm.eq_nil hne
  | cons a t =>
    refine ⟨a, rfl, ?_, ?_⟩
    · have ha : a ∈ sortByStart l := by
        rw [hsl]; exact List.mem_cons_self a t
      exact hp.subset ha
    · intro r hr
      have hr' : r ∈ sortByStart l := hp.symm.subset hr
      rw [hsl] at hr' hs
      rcases List.mem_cons.mp hr' with h | h
      · rw [h]
      · exact List.rel_of_sorted_cons hs r h

theorem sortByEndDesc_head_max (l : List DutyStatusRecord) (hne : l ≠ []) :
    ∃ r₀, (sortByEndDesc l).head? = some r₀ ∧ r₀ ∈ l
      ∧ ∀ r ∈ l, endRank r ≤ endRank r₀ := by
  have hp := sortByEndDesc_perm l
  have hs : List.Sorted (fun a b => endRank b ≤ endRank a) (sortByEndDesc l) :=
    List.sorted_insertionSort _ l
  cases hsl : sortByEndDesc l with
  | nil =>
    rw [hsl] at hp
    exact absurd hp.symm.eq_nil hne
  | cons a t =>
    refine ⟨a, rfl, ?_, ?_⟩
    · have ha : a ∈ sortByEndDesc l := by
        rw [hsl]; exact List.mem_cons_self a t
      exact hp.subset ha
    · intro r hr
      have hr' : r ∈ sortByEndDesc l := hp.symm.subset hr
      rw [hsl] at hr' hs
      rcases List.mem_cons.mp hr' with h | h
      · rw [h]
      · exact List.rel_of_sorted_cons hs r h

theorem endRank_some {r : DutyStatusRecord} {x : ℚ} (h : r.end_time = some x) :
    endRank r = (x : WithBot ℚ) := by
  simp [endRank, h]

/-- C8: the daily-rest rule fires exactly when a previous-day log exists and
the gap between the previous day's last duty-interval end (`e`, the maximal
closed end) and the current day's first duty-interval start (`s`, the
minimal start) is under 10 hours, recording the gap as `actual_value`; with
no previous-day log no `daily_rest` violation is created. -/
theorem C8_daily_rest_rule (logs : List ELDLog) (log : ELDLog) :
    (findLogByDate logs (log.log_date - 1) = none →
      check_daily_rest_requirement logs log = none)
    ∧ ∀ prev, findLogByDate logs (log.log_date - 1) = some prev →
        (prev.duty_records.filter isDutyStatus) ≠ [] →
        (∀ r ∈ prev.duty_records.filter isDutyStatus, r.end_time.isSome) →
        (log.duty_records.filter isDutyStatus) ≠ [] →
        ∃ e s,
          (∃ rp ∈ prev.duty_records.filter isDutyStatus, rp.end_time = some e)
          ∧ (∀ rp ∈ prev.duty_records.filter isDutyStatus,
              ∀ e', rp.end_time = some e' → e' ≤ e)
          ∧ (∃ rc ∈ log.duty_records.filter isDutyStatus, rc.start_time = s)
          ∧ (∀ rc ∈ log.duty_records.filter isDutyStatus, s ≤ rc.start_time)
          ∧ (s - e < 10 →
              check_daily_rest_requirement logs log
                = some { violation_type := ViolationType.daily_rest
                         severity := Severity.violation
                         actual_value := s - e
                         limit_value := 10
                         violation_time := some s })
          ∧ (10 ≤ s - e → check_daily_rest_requirement logs log = none) := by
  constructor
  · intro hnone
    unfold check_daily_rest_requirement
    rw [hnone]
  · intro prev hprev hpne hpcl hcne
    obtain ⟨rp₀, hph, hpmem, hpmax⟩ := sortByEndDesc_head_max _ hpne
    obtain ⟨rc₀, hch, hcmem, hcmin⟩ := sortByStart_head_min _ hcne
    obtain ⟨e, he⟩ := Option.isSome_iff_exists.mp (hpcl rp₀ hpmem)
    have heval : check_daily_rest_requirement logs log
        = if rc₀.start_time - e < 10 then
            some { violation_type := ViolationType.daily_rest
                   severity := Severity.violation
                   actual_value := rc₀.start_time - e
                   limit_value := 10
                   violation_time := some rc₀.start_time }
          else none := by
      unfold check_daily_rest_requirement
      rw [hprev]
      dsimp only
      rw [hph, hch]
      dsimp only
      rw [he]
    refine ⟨e, rc₀.start_time, ⟨rp₀, hpmem, he⟩, ?_, ⟨rc₀, hcmem, rfl⟩, hcmin, ?_, ?_⟩
    · intro rp hrp e' he'
      have hle := hpmax rp hrp
      rw [endRank_some he, endRank_some he'] at hle
      exact_mod_cast hle
    · intro hlt
      rw [heval, if_pos hlt]
    · intro hge
      rw [heval, if_neg (not_lt.mpr hge)]

theorem C8_daily_rest_rule_witness :
    check_daily_rest_requirement
      [⟨0, [⟨Status.on_duty_not_driving, 6, some 21⟩], 0, 0, 0, 0, false, false⟩,
       ⟨1, [⟨Status.driving, 29, some 34⟩], 0, 0, 0, 0, false, false⟩]
      ⟨1, [⟨Status.driving, 29, some 34⟩], 0, 0, 0, 0, false, false⟩
      = some { violation_type := ViolationType.daily_rest
               severity := Severity.violation
               actual_value := 8
               limit_value := 10
               violation_time := some 29 } := by
  have h := (C8_daily_rest_rule
      [⟨0, [⟨Status.on_duty_not_driving, 6, some 21⟩], 0, 0, 0, 0, false, false⟩,
       ⟨1, [⟨Status.driving, 29, some 34⟩], 0, 0, 0, 0, false, false⟩]
      ⟨1, [⟨Status.driving, 29, some 34⟩], 0, 0, 0, 0, false, false⟩).2
      ⟨0, [⟨Status.on_duty_not_driving, 6, some 21⟩], 0, 0, 0, 0, false, false⟩
      (by decide) (by decide) (by decide) (by decide)
  obtain ⟨e, s, ⟨rp, hrpmem, hrpe⟩, -, ⟨rc, hrcmem, hrcs⟩, -, himp, -⟩ := h
  simp only [List.filter_cons, List.filter_nil] at hrpmem hrcmem
  have hrp' : rp = ⟨Status.on_duty_not_driving, 6, some 21⟩ := by
    simpa [isDutyStatus] using hrpmem
  have hrc' : rc = ⟨Status.driving, 29, some 34⟩ := by
    simpa [isDutyStatus] using hrcmem
  subst hrp'
  subst hrc'
  injection hrpe with he
  have hs : s = 29 := hrcs.symm
  subst hs
  subst he
  have heq := himp (by norm_num)
  rw [heq]
  norm_num

theorem buildRecords_chain (p : List (Status × ℚ)) (t : ℚ) :
    List.Chain' (fun a b => a.end_time = some b.start_time) (buildRecords t p) := by
  induction p generalizing t with
  | nil => simp [buildRecords]
  | cons sd rest ih =>
    obtain ⟨st, dur⟩ := sd
    cases rest with
    | nil => simp [buildRecords]
    | cons sd' rest' =>
      obtain ⟨st', dur'⟩ := sd'
      rw [buildRecords, buildRecords]
      rw [List.chain'_cons]
      exact ⟨rfl, by rw [← buildRecords]; exact ih (t + dur)⟩

theorem buildRecords_last_end (p : List (Status × ℚ)) (t : ℚ) (hne : p ≠ []) :
    ∃ r, (buildRecords t p).getLast? = some r
      ∧ r.end_time = some (t + (p.map (fun s => s.2)).sum) := by
  induction p generalizing t with
  | nil => exact absurd rfl hne
  | cons sd rest ih =>
    obtain ⟨st, dur⟩ := sd
    cases rest with
    | nil =>
      refine ⟨⟨st, t, some (t + dur)⟩, rfl, ?_⟩
      simp
    | cons sd' rest' =>
      obtain ⟨st', dur'⟩ := sd'
      obtain ⟨r, hr, hre⟩ := ih (t + dur) (by simp)
      refine ⟨r, ?_, ?_⟩
      · rw [buildRecords] at hr
        rw [buildRecords, buildRecords, List.getLast?_cons_cons]
        exact hr
      · rw [hre]
        congr 1
        simp only [List.map_cons, List.sum_cons]
        ring

theorem buildRecords_nonneg (p : List (Status × ℚ)) (t : ℚ)
    (h : ∀ d ∈ p.map (fun s => s.2), 0 ≤ d) :
    ∀ r ∈ buildRecords t p, ∃ en, r.end_time = some en ∧ r.start_time ≤ en := by
  induction p generalizing t with
  | nil => intro r hr; cases hr
  | cons sd rest ih =>
    obtain ⟨st, dur⟩ := sd
    intro r hr
    rw [buildRecords] at hr
    rcases List.mem_cons.mp hr with hr | hr
    · refine ⟨t + dur, by rw [hr], ?_⟩
      rw [hr]
      have : (0:ℚ) ≤ dur := h dur (by simp)
      dsimp only
      linarith
    · exact ih (t + dur) (fun d hd => h d (by simp [hd])) r hr

theorem chain_nonneg_pairwise (l : List DutyStatusRecord)
    (hch : List.Chain' (fun a b => a.end_time = some b.start_time) l)
    (hnn : ∀ r ∈ l, ∃ en, r.end_time = some en ∧ r.start_time ≤ en) :
    List.Pairwise (fun a b => ∀ ea, a.end_time = some ea → ea ≤ b.start_time) l := by
  induction l with
  | nil => exact List.Pairwise.nil
  | cons a rest ih =>
    cases rest with
    | nil => simp
    | cons b rest' =>
      rw [List.chain'_cons] at hch
      obtain ⟨hab, hch'⟩ := hch
      have ihp := ih hch' (fun r hr => hnn r (List.mem_cons_of_mem a hr))
      refine List.Pairwise.cons ?_ ihp
      intro c hc ea hea
      have hea' : ea = b.start_time := by
        rw [hab] at hea
        injection hea with h'
        exact h'.symm
      subst hea'
      rcases List.mem_cons.mp hc with hc | hc
      · rw [hc]
      · obtain ⟨eb, heb, hsb⟩ := hnn b (by simp)
        have hsep := List.rel_of_pairwise_cons ihp hc
        exact le_trans hsb (hsep eb heb)

theorem dutyPlan_head (day : ℕ) (h : ℚ) :
    ∃ rest, dutyPlan day h = (Status.on_duty_not_driving, (1/4 : ℚ)) :: rest := by
  unfold dutyPlan
  exact ⟨_, rfl⟩

theorem dutyPlan_E0 (day : ℕ) (h : ℚ)
    (hr : min (11:ℚ) (h - (day:ℚ) * 11) ≤ 0) :
    dutyPlan day h = [(Status.on_duty_not_driving, 1/4),
      (Status.on_duty_not_driving, 1/4), (Status.off_duty, 35/2)] := by
  have hng : ¬ (min (11:ℚ) (h - (day:ℚ) * 11) > 0) := not_lt.mpr hr
  unfold dutyPlan
  norm_num [hng]
  rw [if_pos (by linarith)]
  simp
  ring

theorem dutyPlan_day0_A (h : ℚ) (h0 : 0 < h) (h8 : h ≤ 8) :
    dutyPlan 0 h = [(Status.on_duty_not_driving, 1/4), (Status.on_duty_not_driving, 1),
      (Status.driving, h - 1), (Status.on_duty_not_driving, 1/4),
      (Status.off_duty, 35/2 - h)] := by
  have hm : min (11:ℚ) (h - (0:ℕ) * 11) = h := by
    push_cast
    rw [min_eq_right (by linarith)]
    ring
  have hd : min (7:ℚ) (h - 1) = h - 1 := min_eq_right (by linarith)
  unfold dutyPlan
  rw [hm]
  norm_num [h0, hd]
  rw [if_pos (by linarith)]
  simp
  ring

theorem dutyPlan_day0_B1 (h : ℚ) (h8 : 8 < h) (h9 : h ≤ 9) :
    dutyPlan 0 h = [(Status.on_duty_not_driving, 1/4), (Status.on_duty_not_driving, 1),
      (Status.driving, 7), (Status.off_duty, 1/2), (Status.on_duty_not_driving, 1),
      (Status.on_duty_not_driving, 1/4), (Status.off_duty, 8)] := by
  have hm : min (11:ℚ) (h - (0:ℕ) * 11) = h := by
    push_cast
    rw [min_eq_right (by linarith)]
    ring
  have hd : min (7:ℚ) (h - 1) = 7 := min_eq_left (by linarith)
  have hfin : pyInt (h / 11) = 0 := by
    rw [pyInt_of_nonneg _ (by positivity)]
    exact Int.floor_eq_zero_iff.mpr ⟨by positivity, by rw [div_lt_one (by norm_num)]; linarith⟩
  have hma : ¬ (min (3:ℚ) (h - 1 - 7 - 1) > 0) :=
    not_lt.mpr (le_trans (min_le_right _ _) (by linarith))
  unfold dutyPlan
  rw [hm]
  norm_num [hd, hfin, hma, show (0:ℚ) < h by linarith, show h - 1 - 7 > 0 by linarith]

theorem dutyPlan_day0_B2 (h : ℚ) (h9 : 9 < h) (h11 : h < 11) :
    dutyPlan 0 h = [(Status.on_duty_not_driving, 1/4), (Status.on_duty_not_driving, 1),
      (Status.driving, 7), (Status.off_duty, 1/2), (Status.driving, h - 9),
      (Status.on_duty_not_driving, 1), (Status.on_duty_not_driving, 1/4),
      (Status.off_duty, 17 - h)] := by
  have hm : min (11:ℚ) (h - (0:ℕ) * 11) = h := by
    push_cast
    rw [min_eq_right (by linarith)]
    ring
  have hd : min (7:ℚ) (h - 1) = 7 := min_eq_left (by linarith)
  have hfin : pyInt (h / 11) = 0 := by
    rw [pyInt_of_nonneg _ (by positivity)]
    exact Int.floor_eq_zero_iff.mpr ⟨by positivity, by rw [div_lt_one (by norm_num)]; linarith⟩
  have hma : min (3:ℚ) (h - 1 - 7 - 1) = h - 9 := by
    rw [min_eq_right (by linarith)]
    ring
  unfold dutyPlan
  rw [hm]
  norm_num [hd, hfin, hma, show (0:ℚ) < h by linarith, show h - 1 - 7 > 0 by linarith,
    show h - 9 > 0 by linarith]
  rw [if_pos (by linarith)]
  simp
  ring

theorem dutyPlan_day0_B3 (h : ℚ) (h11 : 11 ≤ h) :
    dutyPlan 0 h = [(Status.on_duty_not_driving, 1/4), (Status.on_duty_not_driving, 1),
      (Status.driving, 7), (Status.off_duty, 1/2), (Status.driving, 3),
      (Status.on_duty_not_driving, 1/4), (Status.off_duty, 6)] := by
  have hm : min (11:ℚ) (h - (0:ℕ) * 11) = 11 := by
    push_cast
    rw [min_eq_left (by linarith)]
  have hfin : ¬ ((0:ℤ) = pyInt (h / 11)) := by
    rw [pyInt_of_nonneg _ (by positivity)]
    intro hc
    have h1 : (1:ℤ) ≤ ⌊h / 11⌋ := by
      rw [Int.le_floor]
      rw [le_div_iff₀ (by norm_num : (0:ℚ) < 11)]
      push_cast
      linarith
    omega
  unfold dutyPlan
  rw [hm]
  norm_num [hfin]

theorem dutyPlan_dayN_C (day : ℕ) (h : ℚ) (hday : day ≠ 0)
    (h0 : 0 < min (11:ℚ) (h - (day:ℚ) * 11))
    (h8 : min (11:ℚ) (h - (day:ℚ) * 11) ≤ 8) :
    dutyPlan day h = [(Status.on_duty_not_driving, 1/4),
      (Status.driving, min (11:ℚ) (h - (day:ℚ) * 11)),
      (Status.on_duty_not_driving, 1/4),
      (Status.off_duty, 35/2 - min (11:ℚ) (h - (day:ℚ) * 11))] := by
  have hpos : 0 < day := Nat.pos_of_ne_zero hday
  have hd : min (8:ℚ) (min (11:ℚ) (h - (day:ℚ) * 11))
      = min (11:ℚ) (h - (day:ℚ) * 11) := min_eq_right (by linarith)
  unfold dutyPlan
  norm_num [hday, hpos, h0, hd]
  rw [if_pos (by linarith)]
  simp
  ring

theorem dutyPlan_dayN_D1 (day : ℕ) (h : ℚ) (hday : day ≠ 0)
    (h8 : 8 < min (11:ℚ) (h - (day:ℚ) * 11))
    (h9 : min (11:ℚ) (h - (day:ℚ) * 11) ≤ 9)
    (hfin : (day:ℤ) = pyInt (h / 11)) :
    dutyPlan day h = [(Status.on_duty_not_driving, 1/4), (Status.driving, 8),
      (Status.off_duty, 1/2), (Status.on_duty_not_driving, 1),
      (Status.on_duty_not_driving, 1/4), (Status.off_duty, 8)] := by
  have hpos : 0 < day := Nat.pos_of_ne_zero hday
  unfold dutyPlan
  dsimp only
  set r := min (11:ℚ) (h - (day:ℚ) * 11) with hrdef
  have hd : min (8:ℚ) r = 8 := min_eq_left (by linarith)
  rw [if_pos (show r > 0 by linarith), if_neg hday, if_pos hpos]
  dsimp only
  rw [hd, if_pos (show r - 8 > 0 by linarith)]
  simp only [if_pos hfin]
  rw [if_neg (show ¬ (min (3:ℚ) (r - 8 - 1) > 0) from
      not_lt.mpr (le_trans (min_le_right _ _) (by linarith)))]
  simp only [List.map_append, List.map_cons, List.map_nil, List.sum_append,
    List.sum_cons, List.sum_nil, List.append_nil, List.nil_append, List.cons_append]
  norm_num
  rw [if_pos (by linarith)]
  norm_num
  ring

theorem dutyPlan_dayN_D2 (day : ℕ) (h : ℚ) (hday : day ≠ 0)
    (h9 : 9 < min (11:ℚ) (h - (day:ℚ) * 11))
    (hfin : (day:ℤ) = pyInt (h / 11)) :
    dutyPlan day h = [(Status.on_duty_not_driving, 1/4), (Status.driving, 8),
      (Status.off_duty, 1/2), (Status.driving, min (11:ℚ) (h - (day:ℚ) * 11) - 9),
      (Status.on_duty_not_driving, 1), (Status.on_duty_not_driving, 1/4),
      (Status.off_duty, 17 - min (11:ℚ) (h - (day:ℚ) * 11))] := by
  have hpos : 0 < day := Nat.pos_of_ne_zero hday
  unfold dutyPlan
  dsimp only
  set r := min (11:ℚ) (h - (day:ℚ) * 11) with hrdef
  have hr11 : r ≤ 11 := min_le_left _ _
  have hd : min (8:ℚ) r = 8 := min_eq_left (by linarith)
  have hma : min (3:ℚ) (r - 8 - 1) = r - 9 := by
    rw [min_eq_right (by linarith)]
    ring
  rw [if_pos (show r > 0 by linarith), if_neg hday, if_pos hpos]
  dsimp only
  rw [hd, if_pos (show r - 8 > 0 by linarith)]
  simp only [if_pos hfin]
  rw [hma, if_pos (show r - 9 > 0 by linarith)]
  simp only [List.map_append, List.map_cons, List.map_nil, List.sum_append,
    List.sum_cons, List.sum_nil, List.append_nil, List.nil_append, List.cons_append]
  norm_num
  rw [if_pos (by linarith)]
  norm_num
  ring

theorem dutyPlan_dayN_D3 (day : ℕ) (h : ℚ) (hday : day ≠ 0)
    (h8 : 8 < min (11:ℚ) (h - (day:ℚ) * 11))
    (hfin : ¬ ((day:ℤ) = pyInt (h / 11))) :
    dutyPlan day h = [(Status.on_duty_not_driving, 1/4), (Status.driving, 8),
      (Status.off_duty, 1/2), (Status.driving, min (11:ℚ) (h - (day:ℚ) * 11) - 8),
      (Status.on_duty_not_driving, 1/4),
      (Status.off_duty, 17 - min (11:ℚ) (h - (day:ℚ) * 11))] := by
  have hpos : 0 < day := Nat.pos_of_ne_zero hday
  have hr11 : min (11:ℚ) (h - (day:ℚ) * 11) ≤ 11 := min_le_left _ _
  have hd : min (8:ℚ) (min (11:ℚ) (h - (day:ℚ) * 11)) = 8 := min_eq_left (by linarith)
  have hma : min (3:ℚ) (min (11:ℚ) (h - (day:ℚ) * 11) - 8 - 0)
      = min (11:ℚ) (h - (day:ℚ) * 11) - 8 := by
    rw [min_eq_right (by linarith)]
    ring
  unfold dutyPlan
  norm_num [hday, hpos, hd, hfin, hma,
    show (0:ℚ) < min (11:ℚ) (h - (day:ℚ) * 11) by linarith,
    show min (11:ℚ) (h - (day:ℚ) * 11) - 8 > 0 by linarith]
  rw [if_pos (by linarith)]
  simp
  ring

theorem dutyPlan_sum_nonneg (day : ℕ) (h : ℚ)
    (hday : day = 0 → 1 ≤ h ∨ h ≤ 0) :
    ((dutyPlan day h).map (fun s => s.2)).sum = 18
    ∧ ∀ d ∈ (dutyPlan day h).map (fun s => s.2), 0 ≤ d := by
  by_cases hd0 : day = 0
  · subst hd0
    rcases hday rfl with hge1 | hle0
    · rcases le_or_lt h 8 with hA | hB
      · rw [dutyPlan_day0_A h (by linarith) hA]
        refine ⟨?_, ?_⟩
        · simp only [List.map_cons, List.map_nil, List.sum_cons, List.sum_nil]
          ring
        · intro d hd
          simp only [List.map_cons, List.map_nil, List.mem_cons,
            List.not_mem_nil, or_false] at hd
          rcases hd with rfl | rfl | rfl | rfl | rfl <;> linarith
      · rcases le_or_lt h 9 with hB1 | hB2
        · rw [dutyPlan_day0_B1 h hB hB1]
          refine ⟨?_, ?_⟩
          · simp only [List.map_cons, List.map_nil, List.sum_cons, List.sum_nil]
            ring
          · intro d hd
            simp only [List.map_cons, List.map_nil, List.mem_cons,
              List.not_mem_nil, or_false] at hd
            rcases hd with rfl | rfl | rfl | rfl | rfl | rfl | rfl <;> linarith
        · rcases lt_or_le h 11 with h11 | h11'
          · rw [dutyPlan_day0_B2 h hB2 h11]
            refine ⟨?_, ?_⟩
            · simp only [List.map_cons, List.map_nil, List.sum_cons, List.sum_nil]
              ring
            · intro d hd
              simp only [List.map_cons, List.map_nil, List.mem_cons,
                List.not_mem_nil, or_false] at hd
              rcases hd with rfl | rfl | rfl | rfl | rfl | rfl | rfl | rfl <;> linarith
          · rw [dutyPlan_day0_B3 h h11']
            refine ⟨?_, ?_⟩
            · simp only [List.map_cons, List.map_nil, List.sum_cons, List.sum_nil]
              ring
            · intro d hd
              simp only [List.map_cons, List.map_nil, List.mem_cons,
                List.not_mem_nil, or_false] at hd
              rcases hd with rfl | rfl | rfl | rfl | rfl | rfl | rfl <;> linarith
    · rw [dutyPlan_E0 0 h (by
        refine le_trans (min_le_right _ _) ?_
        push_cast
        linarith)]
      refine ⟨?_, ?_⟩
      · simp only [List.map_cons, List.map_nil, List.sum_cons, List.sum_nil]
        ring
      · intro d hd
        simp only [List.map_cons, List.map_nil, List.mem_cons,
          List.not_mem_nil, or_false] at hd
        rcases hd with rfl | rfl | rfl <;> linarith
  · have hr11 : min (11:ℚ) (h - (day:ℚ) * 11) ≤ 11 := min_le_left _ _
    rcases le_or_lt (min (11:ℚ) (h - (day:ℚ) * 11)) 0 with hr0 | hrpos
    · rw [dutyPlan_E0 day h hr0]
      refine ⟨?_, ?_⟩
      · simp only [List.map_cons, List.map_nil, List.sum_cons, List.sum_nil]
        ring
      · intro d hd
        simp only [List.map_cons, List.map_nil, List.mem_cons,
          List.not_mem_nil, or_false] at hd
        rcases hd with rfl | rfl | rfl <;> linarith
    · rcases le_or_lt (min (11:ℚ) (h - (day:ℚ) * 11)) 8 with hC | hD
      · rw [dutyPlan_dayN_C day h hd0 hrpos hC]
        refine ⟨?_, ?_⟩
        · simp only [List.map_cons, List.map_nil, List.sum_cons, List.sum_nil]
          ring
        · intro d hd
          simp only [List.map_cons, List.map_nil, List.mem_cons,
            List.not_mem_nil, or_false] at hd
          rcases hd with rfl | rfl | rfl | rfl <;> linarith
      · by_cases hfin : (day:ℤ) = pyInt (h / 11)
        · rcases le_or_lt (min (11:ℚ) (h - (day:ℚ) * 11)) 9 with hD1 | hD2
          · rw [dutyPlan_dayN_D1 day h hd0 hD hD1 hfin]
            refine ⟨?_, ?_⟩
            · simp only [List.map_cons, List.map_nil, List.sum_cons, List.sum_nil]
              ring
            · intro d hd
              simp only [List.map_cons, List.map_nil, List.mem_cons,
                List.not_mem_nil, or_false] at hd
              rcases hd with rfl | rfl | rfl | rfl | rfl | rfl <;> linarith
          · rw [dutyPlan_dayN_D2 day h hd0 hD2 hfin]
            refine ⟨?_, ?_⟩
            · simp only [List.map_cons, List.map_nil, List.sum_cons, List.sum_nil]
              ring
            · intro d hd
              simp only [List.map_cons, List.map_nil, List.mem_cons,
                List.not_mem_nil, or_false] at hd
              rcases hd with rfl | rfl | rfl | rfl | rfl | rfl | rfl <;> linarith
        · rw [dutyPlan_dayN_D3 day h hd0 hD hfin]
          refine ⟨?_, ?_⟩
          · simp only [List.map_cons, List.map_nil, List.sum_cons, List.sum_nil]
            ring
          · intro d hd
            simp only [List.map_cons, List.map_nil, List.mem_cons,
              List.not_mem_nil, or_false] at hd
            rcases hd with rfl | rfl | rfl | rfl | rfl | rfl <;> linarith

/-- C9 (amended): for every simulator-generated day whose day-0 driving
allocation is not negative (`total_trip_hours ≥ 1`, or a trip of no positive
driving time, on day 0; later days are unconditional), the records are
contiguous in creation order (each interval's end is exactly the next one's
start), they start at 06:00 — not 00:00 — and end exactly at midnight,
every interval is closed with nonnegative duration, and the intervals are
pairwise non-overlapping. -/
theorem C9_simulator_day_structure (day : ℕ) (h : ℚ)
    (hday : day = 0 → 1 ≤ h ∨ h ≤ 0) :
    List.Chain' (fun a b => a.end_time = some b.start_time)
      (generate_daily_duty_records day h)
    ∧ (generate_daily_duty_records day h).head?.map (fun r => r.start_time)
        = some (24 * (day:ℚ) + 6)
    ∧ (∃ r, (generate_daily_duty_records day h).getLast? = some r
        ∧ r.end_time = some (24 * ((day:ℚ) + 1)))
    ∧ (∀ r ∈ generate_daily_duty_records day h,
        ∃ en, r.end_time = some en ∧ r.start_time ≤ en)
    ∧ List.Pairwise (fun a b => ∀ ea, a.end_time = some ea → ea ≤ b.start_time)
        (generate_daily_duty_records day h) := by
  obtain ⟨hsum, hnonneg⟩ := dutyPlan_sum_nonneg day h hday
  have hne : dutyPlan day h ≠ [] := by
    obtain ⟨rest, hrest⟩ := dutyPlan_head day h
    rw [hrest]
    simp
  refine ⟨buildRecords_chain _ _, ?_, ?_, ?_, ?_⟩
  · obtain ⟨rest, hrest⟩ := dutyPlan_head day h
    rw [generate_daily_duty_records, hrest, buildRecords]
    rfl
  · obtain ⟨r, hr, hre⟩ := buildRecords_last_end (dutyPlan day h) (24 * (day:ℚ) + 6) hne
    refine ⟨r, hr, ?_⟩
    rw [hre, hsum]
    congr 1
    ring
  · exact buildRecords_nonneg _ _ hnonneg
  · exact chain_nonneg_pairwise _ (buildRecords_chain _ _) (buildRecords_nonneg _ _ hnonneg)

/-- C9 counterexample: on the simulated day 0 of a 5-hour trip every
interval starts strictly after 03:00, so the instant 03:00 of the calendar
day is covered by no interval: the day is not covered "from 00:00". -/
theorem C9_counterexample :
    generate_daily_duty_records 0 5 ≠ []
    ∧ (generate_daily_duty_records 0 5).all
        (fun r => decide (3 < r.start_time)) = true := by
  have hp := dutyPlan_day0_A 5 (by norm_num) (by norm_num)
  rw [generate_daily_duty_records, hp]
  norm_num [buildRecords]
  intro hc
  cases hc

theorem C9_simulator_day_structure_witness :
    ((0:ℕ) = 0 → 1 ≤ (5:ℚ) ∨ (5:ℚ) ≤ 0)
    ∧ (List.Chain' (fun a b => a.end_time = some b.start_time)
        (generate_daily_duty_records 0 5)
      ∧ (generate_daily_duty_records 0 5).head?.map (fun r => r.start_time)
          = some (24 * ((0:ℕ):ℚ) + 6)
      ∧ (∃ r, (generate_daily_duty_records 0 5).getLast? = some r
          ∧ r.end_time = some (24 * (((0:ℕ):ℚ) + 1)))
      ∧ (∀ r ∈ generate_daily_duty_records 0 5,
          ∃ en, r.end_time = some en ∧ r.start_time ≤ en)
      ∧ List.Pairwise (fun a b => ∀ ea, a.end_time = some ea → ea ≤ b.start_time)
          (generate_daily_duty_records 0 5)) :=
  ⟨fun _ => Or.inl (by norm_num),
   C9_simulator_day_structure 0 5 (fun _ => Or.inl (by norm_num))⟩

theorem pyInt_div11_zero (h : ℚ) (h0 : 0 < h) (h11 : h < 11) : pyInt (h / 11) = 0 := by
  rw [pyInt_of_nonneg _ (by positivity)]
  exact Int.floor_eq_zero_iff.mpr ⟨by positivity, by rw [div_lt_one (by norm_num)]; linarith⟩

theorem gen_trip_single (h : ℚ) (h0 : 0 < h) (h11 : h < 11) :
    generate_trip_eld_logs h = [mkTripDayLog 0 h] := by
  unfold generate_trip_eld_logs
  rw [pyInt_div11_zero h h0 h11]
  norm_num [show max 1 (Int.toNat (0 + 1)) = 1 from by decide, List.range_succ]

theorem check_daily_driving_limit_none {log : ELDLog} (h : drivingHours log ≤ 11) :
    check_daily_driving_limit log = none := by
  rw [check_daily_driving_limit_eq, if_neg (not_lt.mpr h)]

@[simp] theorem ct_ne_67_78 : CycleType.cycle_60_7 ≠ CycleType.cycle_70_8 := by decide

@[simp] theorem ct_ne_78_67 : CycleType.cycle_70_8 ≠ CycleType.cycle_60_7 := by decide

theorem check_cycle_limit_none {ct : CycleType} {logs : List ELDLog} {log : ELDLog}
    (h : get_current_cycle_hours ct logs log.log_date ≤ 60) :
    check_cycle_limit ct logs log = none := by
  unfold check_cycle_limit
  dsimp only
  cases ct <;>
    rw [if_neg (not_lt.mpr (le_trans h (by norm_num)))]

theorem check_daily_rest_requirement_no_prev {logs : List ELDLog} {log : ELDLog}
    (h : findLogByDate logs (log.log_date - 1) = none) :
    check_daily_rest_requirement logs log = none := by
  unfold check_daily_rest_requirement
  rw [h]

theorem check_hos_eq_nil {ct : CycleType} {logs : List ELDLog} {log : ELDLog}
    (h1 : check_daily_driving_limit log = none)
    (h2 : check_daily_duty_limit log = none)
    (h3 : check_cycle_limit ct logs log = none)
    (h4 : check_break_requirement log = none)
    (h5 : check_daily_rest_requirement logs log = none) :
    check_hos_violations ct logs log = [] := by
  unfold check_hos_violations
  rw [h1, h2, h3, h4, h5]
  rfl

theorem get_cycle_single (ct : CycleType) (l : ELDLog) :
    get_current_cycle_hours ct [l] l.log_date
      = ((l.duty_records.filter isDutyStatus).filterMap
          (fun r => r.end_time.map (fun e => e - r.start_time))).sum := by
  unfold get_current_cycle_hours
  cases ct <;> simp

theorem genRecords_day0_A (h : ℚ) (h0 : 0 < h) (h8 : h ≤ 8) :
    generate_daily_duty_records 0 h
      = [⟨Status.on_duty_not_driving, 6, some (25/4)⟩,
         ⟨Status.on_duty_not_driving, 25/4, some (29/4)⟩,
         ⟨Status.driving, 29/4, some (25/4 + h)⟩,
         ⟨Status.on_duty_not_driving, 25/4 + h, some (13/2 + h)⟩,
         ⟨Status.off_duty, 13/2 + h, some 24⟩] := by
  rw [generate_daily_duty_records, dutyPlan_day0_A h h0 h8]
  norm_num [buildRecords]
  repeat' apply And.intro
  all_goals first | ring | trivial

theorem check_daily_duty_limit_eval (log : ELDLog) (l : List DutyStatusRecord)
    (hsort : sortByStart (log.duty_records.filter isDutyStatus) = l) :
    check_daily_duty_limit log
      = match l.head?, l.getLast? with
        | some first_duty, some last_duty =>
          match last_duty.end_time with
          | some e =>
            if e - first_duty.start_time > 14 then
              some { violation_type := ViolationType.duty_14h
                     severity := Severity.violation
                     actual_value := e - first_duty.start_time
                     limit_value := 14
                     violation_time := some e }
            else none
          | none => none
        | _, _ => none := by
  unfold check_daily_duty_limit
  rw [hsort]

theorem regionA_zero_violations (ct : CycleType) (h : ℚ) (h0 : 0 < h) (h8 : h ≤ 8) :
    check_hos_violations ct [mkTripDayLog 0 h] (mkTripDayLog 0 h) = [] := by
  have hrec : (mkTripDayLog 0 h).duty_records
      = [⟨Status.on_duty_not_driving, 6, some (25/4)⟩,
         ⟨Status.on_duty_not_driving, 25/4, some (29/4)⟩,
         ⟨Status.driving, 29/4, some (25/4 + h)⟩,
         ⟨Status.on_duty_not_driving, 25/4 + h, some (13/2 + h)⟩,
         ⟨Status.off_duty, 13/2 + h, some 24⟩] := genRecords_day0_A h h0 h8
  have hdate : (mkTripDayLog 0 h).log_date = 0 := rfl
  have hdrv : drivingHours (mkTripDayLog 0 h) = h - 1 := by
    rw [drivingHours, hrec]
    norm_num [List.filter_cons, DutyStatusRecord.duration]
    ring
  have hfil : (mkTripDayLog 0 h).duty_records.filter isDutyStatus
      = [⟨Status.on_duty_not_driving, 6, some (25/4)⟩,
         ⟨Status.on_duty_not_driving, 25/4, some (29/4)⟩,
         ⟨Status.driving, 29/4, some (25/4 + h)⟩,
         ⟨Status.on_duty_not_driving, 25/4 + h, some (13/2 + h)⟩] := by
    rw [hrec]
    norm_num [List.filter_cons, isDutyStatus]
  have hduty : check_daily_duty_limit (mkTripDayLog 0 h) = none := by
    rcases lt_or_le h 1 with h1 | h1
    · have hsort : sortByStart
          [⟨Status.on_duty_not_driving, 6, some (25/4)⟩,
           ⟨Status.on_duty_not_driving, 25/4, some (29/4)⟩,
           ⟨Status.driving, 29/4, some (25/4 + h)⟩,
           ⟨Status.on_duty_not_driving, 25/4 + h, some (13/2 + h)⟩]
          = [⟨Status.on_duty_not_driving, 6, some (25/4)⟩,
             ⟨Status.on_duty_not_driving, 25/4, some (29/4)⟩,
             ⟨Status.on_duty_not_driving, 25/4 + h, some (13/2 + h)⟩,
             ⟨Status.driving, 29/4, some (25/4 + h)⟩] := by
        norm_num [sortByStart, List.insertionSort, List.orderedInsert,
          show ¬((29:ℚ)/4 ≤ 25/4 + h) from by linarith,
          show (25:ℚ)/4 ≤ 25/4 + h from by linarith]
      rw [check_daily_duty_limit_eval _ _ (by rw [hfil, hsort])]
      simp only [List.head?_cons, List.getLast?_cons_cons, List.getLast?_singleton]
      try dsimp only
      rw [if_neg (by push_cast; linarith)]
    · have hsort : sortByStart
          [⟨Status.on_duty_not_driving, 6, some (25/4)⟩,
           ⟨Status.on_duty_not_driving, 25/4, some (29/4)⟩,
           ⟨Status.driving, 29/4, some (25/4 + h)⟩,
           ⟨Status.on_duty_not_driving, 25/4 + h, some (13/2 + h)⟩]
          = [⟨Status.on_duty_not_driving, 6, some (25/4)⟩,
             ⟨Status.on_duty_not_driving, 25/4, some (29/4)⟩,
             ⟨Status.driving, 29/4, some (25/4 + h)⟩,
             ⟨Status.on_duty_not_driving, 25/4 + h, some (13/2 + h)⟩] := by
        unfold sortByStart
        apply List.Sorted.insertionSort_eq
        simp [List.sorted_cons]
        repeat' apply And.intro
        all_goals first | linarith | norm_num
      rw [check_daily_duty_limit_eval _ _ (by rw [hfil, hsort])]
      simp only [List.head?_cons, List.getLast?_cons_cons, List.getLast?_singleton]
      try dsimp only
      rw [if_neg (by push_cast; linarith)]
  have hcyc : get_current_cycle_hours ct [mkTripDayLog 0 h] (mkTripDayLog 0 h).log_date ≤ 60 := by
    rw [get_cycle_single, hfil]
    norm_num [List.filterMap_cons]
    linarith
  have hbrk : check_break_requirement (mkTripDayLog 0 h) = none := by
    unfold check_break_requirement
    rw [hrec]
    have hfd : List.filter (fun r => decide (r.duty_status = Status.driving))
        ([⟨Status.on_duty_not_driving, 6, some (25/4)⟩,
         ⟨Status.on_duty_not_driving, 25/4, some (29/4)⟩,
         ⟨Status.driving, 29/4, some (25/4 + h)⟩,
         ⟨Status.on_duty_not_driving, 25/4 + h, some (13/2 + h)⟩,
         ⟨Status.off_duty, 13/2 + h, some 24⟩] : List DutyStatusRecord)
        = [⟨Status.driving, 29/4, some (25/4 + h)⟩] := by
      norm_num [List.filter_cons]
    rw [hfd]
    rw [show sortByStart [⟨Status.driving, 29/4, some (25/4 + h)⟩]
        = [⟨Status.driving, 29/4, some (25/4 + h)⟩] from rfl]
    rw [breakLoop_cons]
    dsimp only
    rw [if_neg (by push_cast; linarith)]
    rfl
  have hrest : check_daily_rest_requirement [mkTripDayLog 0 h] (mkTripDayLog 0 h) = none := by
    apply check_daily_rest_requirement_no_prev
    simp [findLogByDate, List.find?, hdate]
  exact check_hos_eq_nil (check_daily_driving_limit_none (by rw [hdrv]; linarith))
    hduty (check_cycle_limit_none hcyc) hbrk hrest

theorem genRecords_day0_B1 (h : ℚ) (h8 : 8 < h) (h9 : h ≤ 9) :
    generate_daily_duty_records 0 h
      = [⟨Status.on_duty_not_driving, 6, some (25/4)⟩,
         ⟨Status.on_duty_not_driving, 25/4, some (29/4)⟩,
         ⟨Status.driving, 29/4, some (57/4)⟩,
         ⟨Status.off_duty, 57/4, some (59/4)⟩,
         ⟨Status.on_duty_not_driving, 59/4, some (63/4)⟩,
         ⟨Status.on_duty_not_driving, 63/4, some 16⟩,
         ⟨Status.off_duty, 16, some 24⟩] := by
  rw [generate_daily_duty_records, dutyPlan_day0_B1 h h8 h9]
  norm_num [buildRecords]

theorem regionB1_zero_violations (ct : CycleType) (h : ℚ) (h8 : 8 < h) (h9 : h ≤ 9) :
    check_hos_violations ct [mkTripDayLog 0 h] (mkTripDayLog 0 h) = [] := by
  have hlog : mkTripDayLog 0 h
      = ⟨0, [⟨Status.on_duty_not_driving, 6, some (25/4)⟩,
             ⟨Status.on_duty_not_driving, 25/4, some (29/4)⟩,
             ⟨Status.driving, 29/4, some (57/4)⟩,
             ⟨Status.off_duty, 57/4, some (59/4)⟩,
             ⟨Status.on_duty_not_driving, 59/4, some (63/4)⟩,
             ⟨Status.on_duty_not_driving, 63/4, some 16⟩,
             ⟨Status.off_duty, 16, some 24⟩], 0, 0, 0, 0, false, false⟩ := by
    unfold mkTripDayLog
    rw [genRecords_day0_B1 h h8 h9]
    norm_num
  rw [hlog]
  cases ct <;>
    norm_num [check_hos_violations, check_daily_driving_limit, check_daily_duty_limit,
      check_cycle_limit, check_break_requirement, check_daily_rest_requirement,
      get_current_cycle_hours, breakLoop, findLogByDate, List.find?, isDutyStatus,
      sortByStart, sortByEndDesc, endRank, WithBot.coe_le_coe, ← WithBot.coe_ofNat,
      List.insertionSort, List.orderedInsert, DutyStatusRecord.duration,
      List.filter_cons, List.filterMap_cons]

theorem genRecords_day0_B2 (h : ℚ) (h9 : 9 < h) (h11 : h < 11) :
    generate_daily_duty_records 0 h
      = [⟨Status.on_duty_not_driving, 6, some (25/4)⟩,
         ⟨Status.on_duty_not_driving, 25/4, some (29/4)⟩,
         ⟨Status.driving, 29/4, some (57/4)⟩,
         ⟨Status.off_duty, 57/4, some (59/4)⟩,
         ⟨Status.driving, 59/4, some (23/4 + h)⟩,
         ⟨Status.on_duty_not_driving, 23/4 + h, some (27/4 + h)⟩,
         ⟨Status.on_duty_not_driving, 27/4 + h, some (7 + h)⟩,
         ⟨Status.off_duty, 7 + h, some 24⟩] := by
  rw [generate_daily_duty_records, dutyPlan_day0_B2 h h9 h11]
  norm_num [buildRecords]
  repeat' apply And.intro
  all_goals first | ring | trivial

theorem regionB2_zero_violations (ct : CycleType) (h : ℚ) (h9 : 9 < h) (h11 : h < 11) :
    check_hos_violations ct [mkTripDayLog 0 h] (mkTripDayLog 0 h) = [] := by
  have hrec : (mkTripDayLog 0 h).duty_records
      = [⟨Status.on_duty_not_driving, 6, some (25/4)⟩,
         ⟨Status.on_duty_not_driving, 25/4, some (29/4)⟩,
         ⟨Status.driving, 29/4, some (57/4)⟩,
         ⟨Status.off_duty, 57/4, some (59/4)⟩,
         ⟨Status.driving, 59/4, some (23/4 + h)⟩,
         ⟨Status.on_duty_not_driving, 23/4 + h, some (27/4 + h)⟩,
         ⟨Status.on_duty_not_driving, 27/4 + h, some (7 + h)⟩,
         ⟨Status.off_duty, 7 + h, some 24⟩] := genRecords_day0_B2 h h9 h11
  have hdate : (mkTripDayLog 0 h).log_date = 0 := rfl
  have hdrv : drivingHours (mkTripDayLog 0 h) = h - 2 := by
    rw [drivingHours, hrec]
    norm_num [List.filter_cons, DutyStatusRecord.duration]
    ring
  have hfil : (mkTripDayLog 0 h).duty_records.filter isDutyStatus
      = [⟨Status.on_duty_not_driving, 6, some (25/4)⟩,
         ⟨Status.on_duty_not_driving, 25/4, some (29/4)⟩,
         ⟨Status.driving, 29/4, some (57/4)⟩,
         ⟨Status.driving, 59/4, some (23/4 + h)⟩,
         ⟨Status.on_duty_not_driving, 23/4 + h, some (27/4 + h)⟩,
         ⟨Status.on_duty_not_driving, 27/4 + h, some (7 + h)⟩] := by
    rw [hrec]
    norm_num [List.filter_cons, isDutyStatus]
  have hduty : check_daily_duty_limit (mkTripDayLog 0 h) = none := by
    have hsort : sortByStart
        [⟨Status.on_duty_not_driving, 6, some (25/4)⟩,
         ⟨Status.on_duty_not_driving, 25/4, some (29/4)⟩,
         ⟨Status.driving, 29/4, some (57/4)⟩,
         ⟨Status.driving, 59/4, some (23/4 + h)⟩,
         ⟨Status.on_duty_not_driving, 23/4 + h, some (27/4 + h)⟩,
         ⟨Status.on_duty_not_driving, 27/4 + h, some (7 + h)⟩]
        = [⟨Status.on_duty_not_driving, 6, some (25/4)⟩,
           ⟨Status.on_duty_not_driving, 25/4, some (29/4)⟩,
           ⟨Status.driving, 29/4, some (57/4)⟩,
           ⟨Status.driving, 59/4, some (23/4 + h)⟩,
           ⟨Status.on_duty_not_driving, 23/4 + h, some (27/4 + h)⟩,
           ⟨Status.on_duty_not_driving, 27/4 + h, some (7 + h)⟩] := by
      unfold sortByStart
      apply List.Sorted.insertionSort_eq
      simp [List.sorted_cons]
      repeat' apply And.intro
      all_goals first | linarith | norm_num
    rw [check_daily_duty_limit_eval _ _ (by rw [hfil, hsort])]
    simp only [List.head?_cons, List.getLast?_cons_cons, List.getLast?_singleton]
    try dsimp only
    rw [if_neg (by push_cast; linarith)]
  have hcyc : get_current_cycle_hours ct [mkTripDayLog 0 h] (mkTripDayLog 0 h).log_date ≤ 60 := by
    rw [get_cycle_single, hfil]
    norm_num [List.filterMap_cons]
    linarith
  have hbrk : check_break_requirement (mkTripDayLog 0 h) = none := by
    unfold check_break_requirement
    rw [hrec]
    have hfd : List.filter (fun r => decide (r.duty_status = Status.driving))
        ([⟨Status.on_duty_not_driving, 6, some (25/4)⟩,
          ⟨Status.on_duty_not_driving, 25/4, some (29/4)⟩,
          ⟨Status.driving, 29/4, some (57/4)⟩,
          ⟨Status.off_duty, 57/4, some (59/4)⟩,
          ⟨Status.driving, 59/4, some (23/4 + h)⟩,
          ⟨Status.on_duty_not_driving, 23/4 + h, some (27/4 + h)⟩,
          ⟨Status.on_duty_not_driving, 27/4 + h, some (7 + h)⟩,
          ⟨Status.off_duty, 7 + h, some 24⟩] : List DutyStatusRecord)
        = [⟨Status.driving, 29/4, some (57/4)⟩,
           ⟨Status.driving, 59/4, some (23/4 + h)⟩] := by
      norm_num [List.filter_cons]
    rw [hfd]
    have hs2 : sortByStart [⟨Status.driving, 29/4, some (57/4)⟩,
        ⟨Status.driving, 59/4, some (23/4 + h)⟩]
        = [⟨Status.driving, 29/4, some (57/4)⟩,
           ⟨Status.driving, 59/4, some (23/4 + h)⟩] := by
      norm_num [sortByStart, List.insertionSort, List.orderedInsert]
    rw [hs2, breakLoop_cons]
    dsimp only
    rw [if_neg (show ¬((0:ℚ) + (57/4 - 29/4) > 8) from by norm_num)]
    rw [breakLoop_cons]
    dsimp only
    rw [if_pos (show (59:ℚ)/4 - 57/4 ≥ 1/2 from by norm_num)]
    rw [if_neg (show ¬((0:ℚ) + (23/4 + h - 59/4) > 8) from by push_cast; linarith)]
    rfl
  have hrest : check_daily_rest_requirement [mkTripDayLog 0 h] (mkTripDayLog 0 h) = none := by
    apply check_daily_rest_requirement_no_prev
    simp [findLogByDate, List.find?, hdate]
  exact check_hos_eq_nil (check_daily_driving_limit_none (by rw [hdrv]; linarith))
    hduty (check_cycle_limit_none hcyc) hbrk hrest

/-- C2 (amended): for every `total_trip_hours` in the open interval `(0, 11)`
the simulator produces exactly one daily log, whose closed driving intervals
sum to at most 11 hours, and the HOS detector finds zero violations on it;
at the boundary `h = 11` the simulator already produces 2 logs, and at
`h = 25` it produces 3. -/
theorem C2_single_day_trips :
    (∀ (ct : CycleType) (h : ℚ), 0 < h → h < 11 →
      (generate_trip_eld_logs h).length = 1 ∧
      generate_trip_eld_logs h = [mkTripDayLog 0 h] ∧
      drivingHours (mkTripDayLog 0 h) ≤ 11 ∧
      check_hos_violations ct (generate_trip_eld_logs h) (mkTripDayLog 0 h) = []) ∧
    (generate_trip_eld_logs 11).length = 2 ∧
    (generate_trip_eld_logs 25).length = 3 := by
  refine ⟨fun ct h h0 h11 => ?_, ?_, ?_⟩
  · have hgen := gen_trip_single h h0 h11
    refine ⟨by rw [hgen]; rfl, hgen, ?_, ?_⟩
    · rcases le_or_lt h 8 with h8 | h8
      · have hrec : (mkTripDayLog 0 h).duty_records
            = [⟨Status.on_duty_not_driving, 6, some (25/4)⟩,
               ⟨Status.on_duty_not_driving, 25/4, some (29/4)⟩,
               ⟨Status.driving, 29/4, some (25/4 + h)⟩,
               ⟨Status.on_duty_not_driving, 25/4 + h, some (13/2 + h)⟩,
               ⟨Status.off_duty, 13/2 + h, some 24⟩] := genRecords_day0_A h h0 h8
        have hdrv : drivingHours (mkTripDayLog 0 h) = h - 1 := by
          rw [drivingHours, hrec]
          norm_num [List.filter_cons, DutyStatusRecord.duration]
          ring
        rw [hdrv]; linarith
      rcases le_or_lt h 9 with h9 | h9
      · have hrec : (mkTripDayLog 0 h).duty_records
            = [⟨Status.on_duty_not_driving, 6, some (25/4)⟩,
               ⟨Status.on_duty_not_driving, 25/4, some (29/4)⟩,
               ⟨Status.driving, 29/4, some (57/4)⟩,
               ⟨Status.off_duty, 57/4, some (59/4)⟩,
               ⟨Status.on_duty_not_driving, 59/4, some (63/4)⟩,
               ⟨Status.on_duty_not_driving, 63/4, some 16⟩,
               ⟨Status.off_duty, 16, some 24⟩] := genRecords_day0_B1 h h8 h9
        have hdrv : drivingHours (mkTripDayLog 0 h) = 7 := by
          rw [drivingHours, hrec]
          norm_num [List.filter_cons, DutyStatusRecord.duration]
        rw [hdrv]; norm_num
      · have hrec : (mkTripDayLog 0 h).duty_records
            = [⟨Status.on_duty_not_driving, 6, some (25/4)⟩,
               ⟨Status.on_duty_not_driving, 25/4, some (29/4)⟩,
               ⟨Status.driving, 29/4, some (57/4)⟩,
               ⟨Status.off_duty, 57/4, some (59/4)⟩,
               ⟨Status.driving, 59/4, some (23/4 + h)⟩,
               ⟨Status.on_duty_not_driving, 23/4 + h, some (27/4 + h)⟩,
               ⟨Status.on_duty_not_driving, 27/4 + h, some (7 + h)⟩,
               ⟨Status.off_duty, 7 + h, some 24⟩] := genRecords_day0_B2 h h9 h11
        have hdrv : drivingHours (mkTripDayLog 0 h) = h - 2 := by
          rw [drivingHours, hrec]
          norm_num [List.filter_cons, DutyStatusRecord.duration]
          ring
        rw [hdrv]; linarith
    · rw [hgen]
      rcases le_or_lt h 8 with h8 | h8
      · exact regionA_zero_violations ct h h0 h8
      rcases le_or_lt h 9 with h9 | h9
      · exact regionB1_zero_violations ct h h8 h9
      · exact regionB2_zero_violations ct h h9 h11
  · have h1 : pyInt (1:ℚ) = 1 := by
      rw [pyInt_of_nonneg _ (by norm_num)]; norm_num
    norm_num [generate_trip_eld_logs, h1]
    decide
  · have h2 : pyInt ((25:ℚ)/11) = 2 := by
      rw [pyInt_of_nonneg _ (by norm_num)]
      rw [Int.floor_eq_iff]
      norm_num
    norm_num [generate_trip_eld_logs, h2]
    decide

/-- Closed witness for C2: the amended statement instantiated at
`ct = cycle_70_8`, `h = 3`. -/
theorem C2_single_day_trips_witness :
    (0:ℚ) < 3 ∧ (3:ℚ) < 11 ∧
      ((generate_trip_eld_logs 3).length = 1 ∧
       generate_trip_eld_logs 3 = [mkTripDayLog 0 3] ∧
       drivingHours (mkTripDayLog 0 3) ≤ 11 ∧
       check_hos_violations CycleType.cycle_70_8 (generate_trip_eld_logs 3)
         (mkTripDayLog 0 3) = []) :=
  ⟨by norm_num, by norm_num,
   C2_single_day_trips.1 CycleType.cycle_70_8 3 (by norm_num) (by norm_num)⟩

end TruckApp
